import Mathlib

/-!
Shallow embedding of the telemetry/checkpoint hook scripts
(`scripts/hooks/task-interceptor.py`, `telemetry-enhancer.py`,
`telemetry-collector.py`, `checkpoint-manager.py`).

Python values that can appear in a parsed JSON envelope are modelled by the
inductive `Json` below (numbers as integers; the single float produced by the
code, `complexity_score`, is modelled exactly as a rational via `Json.fdiv`).
Process-wide environment variables are modelled by the `Env` structure, the
filesystem by `FileSys`, and durable I/O by explicit `Effect` values.
Standard error (debug prints) is not modelled: it is not durable and never
alters control flow.  Each hook's `main` is a total function from its inputs
(parsed stdin, environment, clock and random values, failure flags for the
I/O operations the source wraps in try/except) to the single JSON document it
prints, the list of durable effects it performs, and the updated environment.
-/

namespace Hooks

/-- Model of a parsed JSON / Python value.  `fdiv a b` denotes the Python
float `a / b` (only produced by `complexity_score`, always exact here). -/
inductive Json where
  | null : Json
  | bool (b : Bool) : Json
  | num (n : Int) : Json
  | str (s : String) : Json
  | arr (xs : List Json) : Json
  | obj (fields : List (String × Json)) : Json
  | fdiv (a b : Int) : Json

/-- Python truthiness of a value (`if x:`). -/
def pyTruthyJson : Json → Bool
  | .null => false
  | .bool b => b
  | .num n => n != 0
  | .str s => s != ""
  | .arr [] => false
  | .arr (_ :: _) => true
  | .obj [] => false
  | .obj (_ :: _) => true
  | .fdiv a _ => a != 0

/-- Truthiness of `os.environ.get(name)` (None or a string). -/
def pyTruthy : Option String → Bool
  | none => false
  | some s => s != ""

/-- First value bound to a key in a dict (keys are unique in parsed JSON). -/
def lookupJ : List (String × Json) → String → Option Json
  | [], _ => none
  | (k, v) :: rest, key => if k = key then some v else lookupJ rest key

/-- Python `d.get(key, default)` on a dict. -/
def dictGetD (fs : List (String × Json)) (k : String) (d : Json) : Json :=
  (lookupJ fs k).getD d

/-- Python `key in d` for a dict. -/
def hasKey (fs : List (String × Json)) (k : String) : Bool :=
  (lookupJ fs k).isSome

/-- Python dict assignment `d[k] = v`: replace in place, else append. -/
def setK : List (String × Json) → String → Json → List (String × Json)
  | [], key, v => [(key, v)]
  | (k, w) :: rest, key, v =>
      if k = key then (k, v) :: rest else (k, w) :: setK rest key v

/-- Attribute access that Python only allows on dicts (`.get` etc.);
any other receiver raises `AttributeError`. -/
def asObj : Json → Except Unit (List (String × Json))
  | .obj fs => .ok fs
  | _ => .error ()

/-- String-only operations (`.lower()`, `.startswith`); any other receiver
raises `AttributeError`. -/
def asStr : Json → Except Unit String
  | .str s => .ok s
  | _ => .error ()

def optStrJson : Option String → Json
  | some s => .str s
  | none => .null

/-- ASCII lowering, as `str.lower()` acts on the ASCII inputs involved. -/
def toLowerStr (s : String) : String := String.mk (s.data.map Char.toLower)

/-- Substring test on character lists (Python `needle in haystack`). -/
def isInfixB : List Char → List Char → Bool
  | nd, [] => nd.isEmpty
  | nd, c :: rest => nd.isPrefixOf (c :: rest) || isInfixB nd rest

/-- Python `needle in haystack` on strings. -/
def pyIn (needle hay : String) : Bool := isInfixB needle.data hay.data

/-- Python `s.startswith(p)`. -/
def pyStartsWith (s p : String) : Bool := p.data.isPrefixOf s.data

/-- Python `s.endswith(p)`. -/
def pyEndsWith (s p : String) : Bool := p.data.reverse.isPrefixOf s.data.reverse

/-- Python whitespace for `\s` / `str.strip()` on the ASCII range. -/
def pyIsSpace (c : Char) : Bool :=
  c = ' ' || c = '\t' || c = '\n' || c = '\r' || c = '\x0b' || c = '\x0c'

/-- Python `str.strip()`. -/
def pyStrip (s : String) : String :=
  String.mk (((s.data.dropWhile pyIsSpace).reverse.dropWhile pyIsSpace).reverse)

/-- `str.isdigit()` on ASCII input: non-empty and all digits. -/
def pyIsDigit (s : String) : Bool := s != "" && s.data.all Char.isDigit

mutual

/-- Python `repr` of a parsed-JSON value, as used by `str()` on containers. -/
def pyRepr : Json → String
  | .null => "None"
  | .bool true => "True"
  | .bool false => "False"
  | .num n => toString n
  | .str s => "\x27" ++ s ++ "\x27"
  | .arr xs => "[" ++ pyReprList xs ++ "]"
  | .obj fs => "\x7b" ++ pyReprFields fs ++ "\x7d"
  | .fdiv a b => toString a ++ "/" ++ toString b

def pyReprList : List Json → String
  | [] => ""
  | [x] => pyRepr x
  | x :: y :: rest => pyRepr x ++ ", " ++ pyReprList (y :: rest)

def pyReprFields : List (String × Json) → String
  | [] => ""
  | [(k, v)] => "\x27" ++ k ++ "\x27: " ++ pyRepr v
  | (k, v) :: p :: rest =>
      "\x27" ++ k ++ "\x27: " ++ pyRepr v ++ ", " ++ pyReprFields (p :: rest)

end

/-- Python `str()`: identity on strings, `repr` rendering on containers. -/
def pyStr : Json → String
  | .str s => s
  | other => pyRepr other

/-- Process environment: the six variables the hooks read or write. -/
structure Env where
  evolutionSessionId : Option String := none
  telemetrySessionId : Option String := none
  telemetryAgentId : Option String := none
  telemetryGeneration : Option String := none
  telemetryEnabled : Option String := none
  evolutionSessionActive : Option String := none
deriving DecidableEq, Repr

/-- Python `a or b` on `os.environ.get` results. -/
def pyOrS (a b : Option String) : Option String := if pyTruthy a then a else b

structure SessionInfo where
  session_id : Option String
  agent_id : String
  generation : Int
deriving DecidableEq, Repr

/-- `get_session_info` (identical in telemetry-enhancer.py,
telemetry-collector.py and checkpoint-manager.py). -/
def get_session_info (env : Env) : SessionInfo :=
  { session_id := pyOrS env.evolutionSessionId env.telemetrySessionId
    agent_id := env.telemetryAgentId.getD "unknown"
    generation :=
      let g := env.telemetryGeneration.getD "0"
      if pyIsDigit g then ((g.toNat?).getD 0 : Int) else 0 }

/-- A durable side effect performed by a hook invocation.  Paths are split
into directory and file name (matching how the sources build them). -/
inductive Effect where
  | mkdirE (dir : String)
  | appendLog (dir name : String) (line : Json)
  | writeJson (dir name : String) (v : Json)
  | writeText (dir name : String) (s : String)
  | copyFile (srcDir srcName dstDir dstName : String)
  | removeFile (dir name : String)

/-- Contents of a durable file. -/
inductive FData where
  | lines (ls : List Json)
  | jsonF (v : Json)
  | textF (s : String)

structure FileRec where
  dir : String
  name : String
  mtime : Int
  data : FData

structure FileSys where
  files : List FileRec

/-- The path test used by `findFile` and `setFile`. -/
def filePred (d n : String) (f : FileRec) : Bool :=
  f.dir == d && f.name == n

def findFile (fs : FileSys) (d n : String) : Option FileRec :=
  fs.files.find? (filePred d n)

def fileData (fs : FileSys) (d n : String) : Option FData :=
  (findFile fs d n).map (fun f => f.data)

/-- Create or overwrite a file, refreshing its modification time. -/
def setFile (fs : FileSys) (now : Int) (d n : String) (dat : FData) : FileSys :=
  if (findFile fs d n).isSome then
    ⟨fs.files.map (fun f =>
      if filePred d n f then ⟨f.dir, f.name, now, dat⟩ else f)⟩
  else ⟨fs.files ++ [⟨d, n, now, dat⟩]⟩

/-- Apply one effect to the filesystem.  Appending a line to a file that does
not hold line records restarts it (never exercised by the hooks). -/
def applyEffect (now : Int) (fs : FileSys) : Effect → FileSys
  | .mkdirE _ => fs
  | .appendLog d n j =>
      let old : List Json :=
        match fileData fs d n with
        | some (.lines ls) => ls
        | _ => []
      setFile fs now d n (.lines (old ++ [j]))
  | .writeJson d n v => setFile fs now d n (.jsonF v)
  | .writeText d n s => setFile fs now d n (.textF s)
  | .copyFile sd sn dd dn =>
      match fileData fs sd sn with
      | some dat => setFile fs now dd dn dat
      | none => fs
  | .removeFile d n => ⟨fs.files.filter (fun f => !(f.dir == d && f.name == n))⟩

def applyEffects (now : Int) (fs : FileSys) (es : List Effect) : FileSys :=
  es.foldl (applyEffect now) fs

/-- Result of the body of a hook's `main` up to the outer `try/except`:
`out = none` means an exception escaped to the outer handler. -/
structure Outcome where
  out : Option Json
  effects : List Effect
  envAfter : Env

/-- One finished hook invocation: the single JSON document printed to
standard output, the durable effects, and the updated environment. -/
structure Run where
  output : Json
  effects : List Effect
  envAfter : Env

namespace TaskInterceptor

/-- Python `tool_name != 'Task'` (equality with a string is only possible
for string values). -/
def isTaskName : Json → Bool
  | .str s => s == "Task"
  | _ => false

def evolution_keywords : List String :=
  ["recreate this", "book page layout", "indesign", "mcp tools",
   "telemetry_end_session", "set_environment_variable", "reference image"]

/-- `is_evolution_prompt` of task-interceptor.py. -/
def is_evolution_prompt (prompt_text : String) : Bool :=
  let prompt_lower := toLowerStr prompt_text
  let nMatches :=
    (evolution_keywords.map (fun keyword =>
      if pyIn keyword prompt_lower then 1 else 0)).sum
  decide (3 ≤ nMatches)

/-- Capture attempt of `\s*([^\n]+)` when `\s*` consumes exactly `k`
characters of `rest`: `[^\n]+` must match at least one character. -/
def capAt (rest : List Char) (k : Nat) : Option (List Char) :=
  match rest.drop k with
  | [] => none
  | c :: cs =>
      if c = '\n' then none
      else some ((c :: cs).takeWhile (fun ch => ch != '\n'))

/-- Greedy backtracking for `\s*`: largest consumption first. -/
def backtrackCapture (rest : List Char) : Nat → Option (List Char)
  | 0 => capAt rest 0
  | k + 1 =>
      match capAt rest (k + 1) with
      | some cap => some cap
      | none => backtrackCapture rest k

/-- `re.search(label + r"\s*([^\n]+)", s, re.IGNORECASE)`: the match is tried
at each position left to right, the label comparison is case-insensitive,
and the capture keeps the original characters. -/
def reSearch (label : List Char) : List Char → Option (List Char)
  | [] => none
  | c :: rest =>
      if label.isPrefixOf ((c :: rest).map Char.toLower) then
        let tail := (c :: rest).drop label.length
        match backtrackCapture tail (tail.takeWhile pyIsSpace).length with
        | some cap => some cap
        | none => reSearch label rest
      else reSearch label rest

/-- `extract_reference_info` of task-interceptor.py: the two label patterns
are tried in order, the first one that matches anywhere wins. -/
def extract_reference_info (prompt_text : String) : Option String :=
  match reSearch "reference image:".data prompt_text.data with
  | some cap => some (pyStrip (String.mk cap))
  | none =>
      match reSearch "reference:".data prompt_text.data with
      | some cap => some (pyStrip (String.mk cap))
      | none => none

/-- The generated session identifier
`f"{int(datetime.now().timestamp())}-evolution-{str(uuid.uuid4())[:8]}"`. -/
def sessionIdStr (nowSec : Int) (randHex : String) : String :=
  toString nowSec ++ "-evolution-" ++ randHex

/-- `setup_evolution_session` of task-interceptor.py. -/
def setup_evolution_session (env : Env) (nowSec : Int) (randHex : String) :
    String × Env :=
  let session_id := sessionIdStr nowSec randHex
  (session_id,
   { env with
      evolutionSessionId := some session_id
      telemetryEnabled := some "true"
      telemetrySessionId := some session_id })

/-- Body of `main` of task-interceptor.py inside the outer `try`.
`metaWriteFail` models the metadata `open`/`json.dump` (not wrapped in any
inner try) raising; the environment mutation has already happened then. -/
def interceptor_body (env : Env) (input : Json) (nowSec : Int)
    (randHex nowIso : String) (metaWriteFail : Bool) : Outcome :=
  match asObj input with
  | .error _ => ⟨none, [], env⟩
  | .ok fields =>
    match asObj (dictGetD fields "tool" (.obj [])) with
    | .error _ => ⟨none, [], env⟩
    | .ok tfs =>
      let tool_name := dictGetD tfs "name" (.str "")
      let parameters := dictGetD tfs "arguments" (.obj [])
      if isTaskName tool_name then
        match asObj parameters with
        | .error _ => ⟨none, [], env⟩
        | .ok pfs =>
          match asStr (dictGetD pfs "prompt" (.str "")) with
          | .error _ => ⟨none, [], env⟩
          | .ok prompt_text =>
            if is_evolution_prompt prompt_text then
              let se := setup_evolution_session env nowSec randHex
              let session_id := se.1
              let env2 := se.2
              let reference := extract_reference_info prompt_text
              let evolution_metadata : Json := .obj
                [("session_id", .str session_id),
                 ("reference", optStrJson reference),
                 ("start_time", .str nowIso),
                 ("intercepted", .bool true)]
              if metaWriteFail then ⟨none, [], env2⟩
              else
                ⟨some input,
                 [.writeJson "/tmp" ("evolution-" ++ session_id ++ ".json")
                    evolution_metadata],
                 env2⟩
            else ⟨some input, [], env⟩
      else ⟨some input, [], env⟩

/-- The minimal valid response of the outer exception handler (the handler
re-reads the exhausted stdin, which fails, and prints this object). -/
def interceptor_fallback : Json :=
  .obj [("tool", .obj [("name", .str "Task"), ("arguments", .obj [])])]

/-- `main` of task-interceptor.py.  `stdin = none` models unparseable or
empty standard input. -/
def interceptor_main (env : Env) (stdin : Option Json) (nowSec : Int)
    (randHex nowIso : String) (metaWriteFail : Bool) : Run :=
  match stdin with
  | none => ⟨interceptor_fallback, [], env⟩
  | some input =>
      let o := interceptor_body env input nowSec randHex nowIso metaWriteFail
      ⟨o.out.getD interceptor_fallback, o.effects, o.envAfter⟩

end TaskInterceptor

def telemetryDir : String := "~/.claude/telemetry"

/-- `write_telemetry_record` (textually identical in telemetry-enhancer.py
and telemetry-collector.py, modulo debug prints).  `mkFail` models
`os.makedirs` raising — it sits before the inner `try`, so the exception
escapes to `main`'s handler; `appendFail` models the append inside the inner
`try` failing, which is swallowed. -/
def write_telemetry_record (rec : List (String × Json))
    (mkFail appendFail : Bool) : Except Unit (List Effect) :=
  let session_id := dictGetD rec "session_id" .null
  if !(pyTruthyJson session_id) then .ok []
  else if mkFail then .error ()
  else
    let telemetry_file := pyStr session_id ++ ".jsonl"
    .ok ([.mkdirE telemetryDir] ++
      if appendFail then [] else [.appendLog telemetryDir telemetry_file (.obj rec)])

namespace TelemetryEnhancer

/-- `enhance_telemetry_capture` of telemetry-enhancer.py. -/
def enhance_telemetry_capture (env : Env) (tool_call : List (String × Json))
    (nowMs : Int) : List (String × Json) :=
  let session_info := get_session_info env
  [("timestamp", .num nowMs),
   ("tool", dictGetD tool_call "name" (.str "unknown")),
   ("parameters", dictGetD tool_call "arguments" (.obj [])),
   ("session_id", optStrJson session_info.session_id),
   ("agent_id", .str session_info.agent_id),
   ("generation", .num session_info.generation),
   ("capture_source", .str "hook_preuse")]

/-- `analyze_tool_usage` of telemetry-enhancer.py (`tool_name` is unused in
the source as well). -/
def analyze_tool_usage (tool_name : String)
    (parameters : List (String × Json)) : Json :=
  .obj
    [("parameter_count", .num parameters.length),
     ("has_coordinates",
       .bool (["x", "y", "width", "height"].any (hasKey parameters))),
     ("has_text_content",
       .bool (["text", "content", "description"].any (hasKey parameters))),
     ("has_style_info",
       .bool (["style", "font", "alignment"].any (hasKey parameters))),
     ("complexity_score",
       .fdiv (Int.ofNat (min (pyStr (.obj parameters)).length 1000)) 100)]

/-- Body of `main` of telemetry-enhancer.py inside the outer `try`. -/
def enhancer_body (env : Env) (input : Json) (nowMs : Int)
    (mkFail appendFail : Bool) : Outcome :=
  match asObj input with
  | .error _ => ⟨none, [], env⟩
  | .ok fields =>
    match asObj (dictGetD fields "tool" (.obj [])) with
    | .error _ => ⟨none, [], env⟩
    | .ok tool_fs =>
      match asStr (dictGetD tool_fs "name" (.str "")) with
      | .error _ => ⟨none, [], env⟩
      | .ok tool_name =>
        if !(pyStartsWith tool_name "mcp__indesign__") then ⟨some input, [], env⟩
        else if !(pyTruthy env.evolutionSessionId) then ⟨some input, [], env⟩
        else
          match asObj (dictGetD tool_fs "arguments" (.obj [])) with
          | .error _ => ⟨none, [], env⟩
          | .ok args_fs =>
            let enhanced_call := enhance_telemetry_capture env tool_fs nowMs
            let withUsage :=
              setK enhanced_call "usage_analysis"
                (analyze_tool_usage tool_name args_fs)
            match write_telemetry_record withUsage mkFail appendFail with
            | .error _ => ⟨none, [], env⟩
            | .ok effs => ⟨some input, effs, env⟩

/-- Minimal valid response of the outer exception handler. -/
def enhancer_fallback : Json :=
  .obj [("tool", .obj [("name", .str "unknown"), ("arguments", .obj [])])]

/-- `main` of telemetry-enhancer.py. -/
def enhancer_main (env : Env) (stdin : Option Json) (nowMs : Int)
    (mkFail appendFail : Bool) : Run :=
  match stdin with
  | none => ⟨enhancer_fallback, [], env⟩
  | some input =>
      let o := enhancer_body env input nowMs mkFail appendFail
      ⟨o.out.getD enhancer_fallback, o.effects, o.envAfter⟩

end TelemetryEnhancer

namespace TelemetryCollector

/-- `analyze_tool_result` of telemetry-collector.py (`tool_name` is unused
in the source as well; the caller has already established that `result` is a
dict). -/
def analyze_tool_result (tool_name : Json)
    (result : List (String × Json)) : Json :=
  let err := dictGetD result "error" .null
  let base : List (String × Json) :=
    [("success", .bool (!(pyTruthyJson err))),
     ("has_content", .bool (pyTruthyJson (dictGetD result "content" .null))),
     ("result_size",
       .num (if pyTruthyJson (.obj result)
             then (Int.ofNat (pyStr (.obj result)).length) else 0)),
     ("error_type", .null)]
  if pyTruthyJson err then
    let error_msg := toLowerStr (pyStr err)
    let et : String :=
      if pyIn "timeout" error_msg then "timeout"
      else if pyIn "permission" error_msg || pyIn "access" error_msg then
        "permission"
      else if pyIn "not found" error_msg || pyIn "missing" error_msg then
        "not_found"
      else if pyIn "invalid" error_msg || pyIn "parameter" error_msg then
        "parameter"
      else "unknown"
    .obj (setK base "error_type" (.str et))
  else .obj base

/-- `complete_telemetry_record` of telemetry-collector.py; fails
(`AttributeError`) when `result` is not a dict. -/
def complete_telemetry_record (env : Env) (tool_call : List (String × Json))
    (result : Json) (execution_time : Json) (nowMs : Int) :
    Except Unit (List (String × Json)) :=
  let session_info := get_session_info env
  match asObj result with
  | .error e => .error e
  | .ok rfs =>
  let err := dictGetD rfs "error" .null
  let base : List (String × Json) :=
    [("timestamp", .num nowMs),
     ("tool", dictGetD tool_call "name" (.str "unknown")),
     ("parameters", dictGetD tool_call "arguments" (.obj [])),
     ("result", .str (if pyTruthyJson err then "error" else "success")),
     ("execution_time", execution_time),
     ("session_id", optStrJson session_info.session_id),
     ("agent_id", .str session_info.agent_id),
     ("generation", .num session_info.generation),
     ("capture_source", .str "hook_postuse")]
  let withErr :=
    if pyTruthyJson err then setK base "error_message" (.str (pyStr err))
    else base
  .ok (setK withErr "result_analysis"
    (analyze_tool_result (dictGetD tool_call "name" (.str "")) rfs))

/-- `update_session_statistics` of telemetry-collector.py.  Every failure
inside its `try` (read, parse, type error on the counter, write) is
swallowed; `statsFail` models the I/O failures. -/
def update_session_statistics (session_id nowIso : String) (fs : FileSys)
    (statsFail : Bool) : List Effect :=
  if statsFail then []
  else
    let statsName := session_id ++ "-stats.json"
    let stats? : Option (List (String × Json)) :=
      match fileData fs telemetryDir statsName with
      | none => some []
      | some (.jsonF (.obj st)) => some st
      | some _ => none
    match stats? with
    | none => []
    | some stats =>
      match dictGetD stats "total_tools" (.num 0) with
      | .num n =>
          [.writeJson telemetryDir statsName
            (.obj (setK (setK stats "total_tools" (.num (n + 1)))
              "last_update" (.str nowIso)))]
      | .bool b =>
          [.writeJson telemetryDir statsName
            (.obj (setK (setK stats "total_tools"
              (.num ((if b then 1 else 0) + 1))) "last_update" (.str nowIso)))]
      | _ => []

/-- Body of `main` of telemetry-collector.py inside the outer `try`. -/
def collector_body (env : Env) (input : Json) (nowMs : Int) (nowIso : String)
    (fsW : FileSys) (mkFail appendFail statsFail : Bool) : Outcome :=
  match asObj input with
  | .error _ => ⟨none, [], env⟩
  | .ok fields =>
    match asObj (dictGetD fields "tool" (.obj [])) with
    | .error _ => ⟨none, [], env⟩
    | .ok tool_fs =>
      match asStr (dictGetD tool_fs "name" (.str "")) with
      | .error _ => ⟨none, [], env⟩
      | .ok tool_name =>
        let result := dictGetD fields "result" (.obj [])
        let timing := dictGetD fields "timing" (.obj [])
        if !(pyStartsWith tool_name "mcp__indesign__") then ⟨some input, [], env⟩
        else if !(pyTruthy env.evolutionSessionId) then ⟨some input, [], env⟩
        else
          match asObj timing with
          | .error _ => ⟨none, [], env⟩
          | .ok timing_fs =>
            let execution_time := dictGetD timing_fs "total_ms" (.num 0)
            match complete_telemetry_record env tool_fs result execution_time
                nowMs with
            | .error _ => ⟨none, [], env⟩
            | .ok completed_record =>
              match write_telemetry_record completed_record mkFail appendFail with
              | .error _ => ⟨none, [], env⟩
              | .ok e1 =>
                let session_info := get_session_info env
                let e2 :=
                  if pyTruthy session_info.session_id then
                    update_session_statistics (session_info.session_id.getD "")
                      nowIso (applyEffects nowMs fsW e1) statsFail
                  else []
                ⟨some input, e1 ++ e2, env⟩

/-- Minimal valid response of the outer exception handler. -/
def collector_fallback : Json :=
  .obj [("result", .obj []), ("tool", .obj [("name", .str "unknown")])]

/-- `main` of telemetry-collector.py. -/
def collector_main (env : Env) (stdin : Option Json) (nowMs : Int)
    (nowIso : String) (fsW : FileSys) (mkFail appendFail statsFail : Bool) :
    Run :=
  match stdin with
  | none => ⟨collector_fallback, [], env⟩
  | some input =>
      let o := collector_body env input nowMs nowIso fsW mkFail appendFail
        statsFail
      ⟨o.out.getD collector_fallback, o.effects, o.envAfter⟩

end TelemetryCollector

namespace CheckpointManager

def archiveRoot : String := "~/.claude/evolution-archive"

/-- `finalize_telemetry_session` of checkpoint-manager.py.  `finFail` models
the append inside its `try` failing (swallowed). -/
def finalize_telemetry_session (session_id : String) (nowMs : Int)
    (nowIso : String) (finFail : Bool) : List Effect :=
  if session_id == "" then []
  else
    let completion_record : Json := .obj
      [("timestamp", .num nowMs),
       ("session_id", .str session_id),
       ("event", .str "session_complete"),
       ("completion_time", .str nowIso),
       ("capture_source", .str "hook_stop")]
    if finFail then []
    else [.appendLog telemetryDir (session_id ++ ".jsonl") completion_record]

/-- `archive_evolution_data` of checkpoint-manager.py.  The two `os.makedirs`
calls (lines 69 and 74 of the source) sit before the `try`; `mk1Fail` and
`mk2Fail` model them raising, and the exception — carried here as `.error`
holding the effects performed up to that point — escapes to `main`'s outer
handler.  `archFail` models the body of the `try` raising at its start;
any failure inside the `try` is caught and turned into a `None` return. -/
def archive_evolution_data (session_id tsStr nowIso : String) (fsW : FileSys)
    (mk1Fail mk2Fail archFail : Bool) :
    Except (List Effect) (Option String × List Effect) :=
  if session_id == "" then .ok (none, [])
  else if mk1Fail then .error []
  else
    let session_archive := archiveRoot ++ "/" ++ tsStr ++ "_" ++ session_id
    if mk2Fail then .error [.mkdirE archiveRoot]
    else
    let pre : List Effect := [.mkdirE archiveRoot, .mkdirE session_archive]
    if archFail then .ok (none, pre)
    else
      let telFiles := fsW.files.filter (fun f =>
        f.dir == telemetryDir && pyIn session_id f.name)
      let copies := telFiles.map (fun f =>
        Effect.copyFile telemetryDir f.name session_archive f.name)
      let archived0 := telFiles.map (fun f => f.name)
      let metaName := "evolution-" ++ session_id ++ ".json"
      let hasMeta := (fileData fsW "/tmp" metaName).isSome
      let metaEffs : List Effect :=
        if hasMeta then
          [.copyFile "/tmp" metaName session_archive "session-metadata.json",
           .removeFile "/tmp" metaName]
        else []
      let archived_files :=
        archived0 ++ if hasMeta then ["session-metadata.json"] else []
      let archive_summary : Json := .obj
        [("session_id", .str session_id),
         ("archive_time", .str nowIso),
         ("archive_path", .str session_archive),
         ("archived_files", .arr (archived_files.map (fun n => .str n))),
         ("total_files", .num archived_files.length)]
      .ok (some session_archive,
        pre ++ copies ++ metaEffs ++
          [.writeJson session_archive "archive-summary.json"
            archive_summary])

/-- The glob pattern `evolution-*.json` on a file name (`*` may be empty, so
a match is exactly a name of the form `evolution-` ++ mid ++ `.json`). -/
def matchesTempGlob (n : String) : Bool :=
  pyStartsWith n "evolution-" && pyEndsWith n ".json" && decide (15 ≤ n.length)

/-- `cleanup_temporary_files` of checkpoint-manager.py: delete every file
matching `/tmp/evolution-*.json` whose modification time is more than 3600
seconds in the past (per-file deletion failures are swallowed by the source
and not modelled). -/
def cleanup_temporary_files (now : Int) (fsW : FileSys) : List Effect :=
  (fsW.files.filter (fun f =>
    f.dir == "/tmp" && matchesTempGlob f.name &&
      decide (now - f.mtime > 3600))).map
    (fun f => .removeFile f.dir f.name)

/-- The markdown document written by `generate_resume_instructions`. -/
def resumeText (session_id archive_path nowIso : String) : String :=
  s!"# Evolution Session Resume Instructions

## Session Information
- **Session ID**: {session_id}
- **Archive Time**: {nowIso}
- **Archive Path**: {archive_path}

## To Resume Evolution Testing

1. **Check archived telemetry**:
   ```bash
   ls {archive_path}
   cat {archive_path}/{session_id}.jsonl
   ```

2. **Restart evolution with same configuration**:
   ```bash
   npm run evolve:complete -- --resume-from={session_id}
   ```

3. **Or manually continue**:
   ```bash
   # Set environment variables
   export EVOLUTION_SESSION_ID={session_id}
   export TELEMETRY_ENABLED=true
   
   # Run next generation
   npm run evolve:complete
   ```

## Archived Files
- Telemetry data: `{session_id}.jsonl`
- Session stats: `{session_id}-stats.json`
- Session metadata: `session-metadata.json`
- Archive summary: `archive-summary.json`

## Notes
This session was automatically checkpointed due to conversation boundary.
All telemetry and progress data has been preserved for analysis or resumption.
"

/-- `generate_resume_instructions` of checkpoint-manager.py; `resFail`
models the write inside its `try` failing (swallowed). -/
def generate_resume_instructions (session_id : String)
    (archive_path : Option String) (nowIso : String) (resFail : Bool) :
    List Effect :=
  match archive_path with
  | none => []
  | some ap =>
      if resFail then []
      else
        [.writeText ap "RESUME_INSTRUCTIONS.md"
          (resumeText session_id ap nowIso)]

/-- `main` of checkpoint-manager.py.  The stdin parse has its own inner
`try` (`input_data = {}` on failure).  Every fallible operation except the
two `os.makedirs` calls of the archive step is inside a modelled inner
`try`; a makedirs failure escapes to the outer handler, which prints the
substitute empty object — the finalize append has already happened, and the
resume guide, the scratch sweep and the environment clearing never run. -/
def checkpoint_main (env : Env) (stdin : Option Json) (now nowMs : Int)
    (nowIso tsStr : String) (fsW : FileSys)
    (finFail mk1Fail mk2Fail archFail resFail : Bool) : Run :=
  let input_data := stdin.getD (.obj [])
  let session_info := get_session_info env
  if pyTruthy session_info.session_id && pyTruthy env.evolutionSessionActive
  then
    let session_id := session_info.session_id.getD ""
    let e1 := finalize_telemetry_session session_id nowMs nowIso finFail
    let fs1 := applyEffects now fsW e1
    match archive_evolution_data session_id tsStr nowIso fs1 mk1Fail mk2Fail
        archFail with
    | .error eErr => ⟨.obj [], e1 ++ eErr, env⟩
    | .ok ae =>
        let fs2 := applyEffects now fs1 ae.2
        let e3 := generate_resume_instructions session_id ae.1 nowIso resFail
        let fs3 := applyEffects now fs2 e3
        let e4 := cleanup_temporary_files now fs3
        let env2 :=
          { env with evolutionSessionId := none,
                     evolutionSessionActive := none }
        ⟨input_data, e1 ++ ae.2 ++ e3 ++ e4, env2⟩
  else ⟨input_data, [], env⟩

end CheckpointManager

/-- The session's append-only log, as a list of JSON lines. -/
def logLines (fsW : FileSys) (session_id : String) : List Json :=
  match fileData fsW telemetryDir (session_id ++ ".jsonl") with
  | some (.lines ls) => ls
  | _ => []

/-- A well-formed pre- or post-capture envelope for the log-shape property:
the tool name, arguments, and (for the completion half) result and timing
supplied by the host. -/
inductive CapEvent where
  | pre (toolName : String) (args : List (String × Json))
  | post (toolName : String) (args result : List (String × Json))
      (totalMs : Json)

def CapEvent.toolName : CapEvent → String
  | .pre t _ => t
  | .post t _ _ _ => t

def CapEvent.isPost : CapEvent → Bool
  | .pre _ _ => false
  | .post _ _ _ _ => true

def mkPreEnvelope (toolName : String) (args : List (String × Json)) : Json :=
  .obj [("tool", .obj [("name", .str toolName), ("arguments", .obj args)])]

def mkPostEnvelope (toolName : String) (args result : List (String × Json))
    (totalMs : Json) : Json :=
  .obj [("tool", .obj [("name", .str toolName), ("arguments", .obj args)]),
        ("result", .obj result),
        ("timing", .obj [("total_ms", totalMs)])]

/-- Run one capture invocation (enhancer for the pre half, collector for the
post half) with no I/O failures and apply its durable effects. -/
def capStep (env : Env) (nowMs : Int) (nowIso : String) (fsW : FileSys) :
    CapEvent → FileSys
  | .pre t a =>
      applyEffects nowMs fsW
        (TelemetryEnhancer.enhancer_main env (some (mkPreEnvelope t a)) nowMs
          false false).effects
  | .post t a r m =>
      applyEffects nowMs fsW
        (TelemetryCollector.collector_main env (some (mkPostEnvelope t a r m))
          nowMs nowIso fsW false false false).effects

/-- Run a sequence of capture invocations against the filesystem. -/
def runCaptures (env : Env) (nowMs : Int) (nowIso : String) :
    FileSys → List CapEvent → FileSys
  | fsW, [] => fsW
  | fsW, e :: rest =>
      runCaptures env nowMs nowIso (capStep env nowMs nowIso fsW e) rest

/-! ### Helper lemmas -/

theorem sum_map_ite_eq_countP (p : String → Bool) (l : List String) :
    (l.map (fun k => if p k then (1 : Nat) else 0)).sum = l.countP p := by
  induction l with
  | nil => simp
  | cons a t ih =>
      by_cases h : p a <;> simp [List.countP_cons, h, ih, Nat.add_comm]

theorem reSearch_none_of_no_occurrence (label : List Char) (s : List Char)
    (h : isInfixB label (s.map Char.toLower) = false) :
    TaskInterceptor.reSearch label s = none := by
  induction s with
  | nil => rfl
  | cons c rest ih =>
      rw [List.map_cons, isInfixB] at h
      rw [Bool.or_eq_false_iff] at h
      rw [TaskInterceptor.reSearch]
      rw [List.map_cons, h.1]
      simp only [Bool.false_eq_true, if_false]
      exact ih h.2

theorem lookupJ_setK_self (l : List (String × Json)) (k : String) (v : Json) :
    lookupJ (setK l k v) k = some v := by
  induction l with
  | nil => simp [setK, lookupJ]
  | cons a t ih =>
      by_cases h : a.1 = k <;> simp [setK, lookupJ, h, ih]

theorem lookupJ_setK_other (l : List (String × Json)) (k k' : String)
    (v : Json) (hne : k ≠ k') :
    lookupJ (setK l k v) k' = lookupJ l k' := by
  induction l with
  | nil => simp [setK, lookupJ, hne]
  | cons a t ih =>
      by_cases h : a.1 = k
      · simp [setK, lookupJ, h, hne]
      · by_cases h2 : a.1 = k' <;> simp [setK, lookupJ, h, h2, ih, Ne.symm hne]

/-! ### Claim theorems -/

theorem mem_applyEffects_removeAll (now : Int) (fs : FileSys)
    (es : List Effect)
    (hall : ∀ e ∈ es, ∃ d n, e = Effect.removeFile d n) (f : FileRec) :
    f ∈ (applyEffects now fs es).files ↔
      f ∈ fs.files ∧
        ∀ d n, Effect.removeFile d n ∈ es → ¬(f.dir = d ∧ f.name = n) := by
  induction es generalizing fs with
  | nil => simp [applyEffects]
  | cons e rest ih =>
      obtain ⟨d, n, rfl⟩ := hall e (by simp)
      have hrest : ∀ e ∈ rest, ∃ d n, e = Effect.removeFile d n :=
        fun e he => hall e (by simp [he])
      have hstep : applyEffects now fs (Effect.removeFile d n :: rest)
          = applyEffects now (applyEffect now fs (.removeFile d n)) rest := by
        simp [applyEffects]
      rw [hstep, ih _ hrest]
      simp only [applyEffect, List.mem_filter, List.mem_cons]
      constructor
      · rintro ⟨⟨hf, hb⟩, hrec⟩
        refine ⟨hf, ?_⟩
        rintro d' n' (h | h)
        · rintro ⟨hd, hn⟩
          cases h
          simp [hd, hn] at hb
        · exact hrec d' n' h
      · rintro ⟨hf, hrec⟩
        refine ⟨⟨hf, ?_⟩, fun d' n' h => hrec d' n' (by simp [h])⟩
        have := hrec d n (by simp)
        simp only [Bool.not_eq_true', Bool.and_eq_false_iff, beq_eq_false_iff_ne]
        by_cases hd : f.dir = d
        · right
          intro hn
          exact this ⟨hd, hn⟩
        · left
          exact hd

theorem mem_cleanup_iff (now : Int) (fsW : FileSys) (d n : String) :
    Effect.removeFile d n ∈ CheckpointManager.cleanup_temporary_files now fsW
      ↔ ∃ g ∈ fsW.files,
          (g.dir == "/tmp" && CheckpointManager.matchesTempGlob g.name &&
            decide (now - g.mtime > 3600)) = true ∧
          d = g.dir ∧ n = g.name := by
  unfold CheckpointManager.cleanup_temporary_files
  simp only [List.mem_map, List.mem_filter]
  constructor
  · rintro ⟨g, ⟨hg, hc⟩, heq⟩
    cases heq
    exact ⟨g, hg, hc, rfl, rfl⟩
  · rintro ⟨g, hg, hc, rfl, rfl⟩
    exact ⟨g, ⟨hg, hc⟩, rfl⟩

/-- The cleanup sweep applied to the filesystem. -/
def sweepOld (now : Int) (fsW : FileSys) : FileSys :=
  applyEffects now fsW (CheckpointManager.cleanup_temporary_files now fsW)

/-- C9: the sweep deletes a scratch metadata file iff its modification time
is more than one hour (3600 s) in the past: on a filesystem without
duplicate paths a file survives iff it is not a `/tmp/evolution-*.json`
file older than 3600 s; a 30-minute-old scratch file survives while a
90-minute-old one is deleted; and running the sweep twice in immediate
succession deletes nothing additional. -/
theorem C9_cleanup_age_threshold :
    (∀ (now : Int) (fsW : FileSys) (f : FileRec), f ∈ fsW.files →
      (fsW.files.map (fun g => (g.dir, g.name))).Nodup →
      (f ∈ (sweepOld now fsW).files ↔
        ¬(f.dir = "/tmp" ∧ CheckpointManager.matchesTempGlob f.name = true ∧
          now - f.mtime > 3600))) ∧
    ((sweepOld 5400 ⟨[⟨"/tmp", "evolution-a.json", 3600, .jsonF (.obj [])⟩,
        ⟨"/tmp", "evolution-b.json", 0, .jsonF (.obj [])⟩]⟩).files.map
        (fun f => f.name) = ["evolution-a.json"]) ∧
    (∀ (now : Int) (fsW : FileSys),
      CheckpointManager.cleanup_temporary_files now (sweepOld now fsW) = []) := by
  have hall : ∀ (now : Int) (fsW : FileSys),
      ∀ e ∈ CheckpointManager.cleanup_temporary_files now fsW,
        ∃ d n, e = Effect.removeFile d n := by
    intro now fsW e he
    unfold CheckpointManager.cleanup_temporary_files at he
    obtain ⟨g, _, rfl⟩ := List.mem_map.mp he
    exact ⟨g.dir, g.name, rfl⟩
  have hmem : ∀ (now : Int) (fsW : FileSys) (f : FileRec),
      f ∈ (sweepOld now fsW).files ↔
        f ∈ fsW.files ∧
          ∀ d n, Effect.removeFile d n ∈
              CheckpointManager.cleanup_temporary_files now fsW →
            ¬(f.dir = d ∧ f.name = n) := by
    intro now fsW f
    exact mem_applyEffects_removeAll now fsW _ (hall now fsW) f
  refine ⟨?_, by decide, ?_⟩
  · intro now fsW f hf hnodup
    rw [hmem]
    constructor
    · rintro ⟨-, hrec⟩
      rintro ⟨hd, hg, hold⟩
      refine hrec f.dir f.name ?_ ⟨rfl, rfl⟩
      rw [mem_cleanup_iff]
      exact ⟨f, hf, by simp [hd, hg, hold], rfl, rfl⟩
    · intro hnc
      refine ⟨hf, ?_⟩
      intro d n hdn
      rintro ⟨hfd, hfn⟩
      rw [mem_cleanup_iff] at hdn
      obtain ⟨g, hg, hc, rfl, rfl⟩ := hdn
      have : f = g :=
        List.inj_on_of_nodup_map hnodup hf hg (by simp [hfd, hfn])
      subst this
      simp only [Bool.and_eq_true, beq_iff_eq, decide_eq_true_eq] at hc
      exact hnc ⟨hc.1.1, hc.1.2, hc.2⟩
  · intro now fsW
    unfold CheckpointManager.cleanup_temporary_files
    rw [List.map_eq_nil_iff]
    rw [List.filter_eq_nil_iff]
    intro f hf
    rw [hmem] at hf
    obtain ⟨hf0, hrec⟩ := hf
    simp only [Bool.and_eq_true, beq_iff_eq, decide_eq_true_eq]
    rintro ⟨⟨hd, hg⟩, hold⟩
    refine hrec f.dir f.name ?_ ⟨rfl, rfl⟩
    rw [mem_cleanup_iff]
    exact ⟨f, hf0, by simp [hd, hg, hold], rfl, rfl⟩

/-- Witness for C9 on a two-file filesystem with distinct paths. -/
theorem C9_cleanup_age_threshold_witness :
    ⟨"/tmp", "evolution-a.json", 3600, .jsonF (.obj [])⟩ ∈
      (sweepOld 5400 ⟨[⟨"/tmp", "evolution-a.json", 3600, .jsonF (.obj [])⟩,
        ⟨"/tmp", "evolution-b.json", 0, .jsonF (.obj [])⟩]⟩).files := by
  rw [C9_cleanup_age_threshold.1 5400 _ _ (by simp) (by simp)]
  decide


/-- Well-formedness of an envelope up to the accesses the telemetry hooks
perform before their namespace filter: the input parses to a dict, its
`tool` entry (if any) is a dict, and that dict's `name` entry (if any) is a
string. -/
def baseEnvelopeOK : Json → Bool
  | .obj fields =>
      match lookupJ fields "tool" with
      | none => true
      | some (.obj tfs) =>
          (match lookupJ tfs "name" with
           | none => true
           | some (.str _) => true
           | some _ => false)
      | some _ => false
  | _ => false

/-- Well-formedness of an envelope up to the accesses the task interceptor
performs: additionally, when the tool is `Task`, the `arguments` entry (if
any) is a dict whose `prompt` entry (if any) is a string. -/
def taskEnvelopeOK : Json → Bool
  | .obj fields =>
      match lookupJ fields "tool" with
      | none => true
      | some (.obj tfs) =>
          (match lookupJ tfs "name" with
           | some (.str s) =>
               if s = "Task" then
                 (match lookupJ tfs "arguments" with
                  | none => true
                  | some (.obj pfs) =>
                      (match lookupJ pfs "prompt" with
                       | none => true
                       | some (.str _) => true
                       | some _ => false)
                  | some _ => false)
               else true
           | some _ => true
           | none => true)
      | some _ => false
  | _ => false

/-- The prompt string the interceptor classifies, when the envelope
addresses the `Task` tool and is well-formed (absent otherwise). -/
def taskPromptOf : Json → Option String
  | .obj fields =>
      match lookupJ fields "tool" with
      | some (.obj tfs) =>
          (match lookupJ tfs "name" with
           | some (.str s) =>
               if s = "Task" then
                 (match lookupJ tfs "arguments" with
                  | none => some ""
                  | some (.obj pfs) =>
                      (match lookupJ pfs "prompt" with
                       | none => some ""
                       | some (.str p) => some p
                       | some _ => none)
                  | some _ => none)
               else none
           | _ => none)
      | _ => none
  | _ => none

theorem enhancer_noop_without_session (env : Env) (input : Json)
    (nowMs : Int) (mkF apF : Bool)
    (h1 : pyTruthy env.evolutionSessionId = false)
    (hok : baseEnvelopeOK input = true) :
    TelemetryEnhancer.enhancer_main env (some input) nowMs mkF apF
      = ⟨input, [], env⟩ := by
  have hsw : pyStartsWith "" "mcp__indesign__" = false := by decide
  cases input with
  | obj fields =>
      unfold baseEnvelopeOK at hok
      unfold TelemetryEnhancer.enhancer_main TelemetryEnhancer.enhancer_body
      rcases htool : lookupJ fields "tool" with _ | v
      · simp [htool, dictGetD, asObj, asStr, lookupJ, hsw]
      · rcases v with _ | _ | _ | _ | _ | tfs | _ <;> simp [htool] at hok
        rcases hname : lookupJ tfs "name" with _ | w
        · simp [htool, hname, dictGetD, asObj, asStr, hsw]
        · rcases w with _ | _ | _ | s | _ | _ | _ <;>
            simp [htool, hname] at hok <;>
            cases h4 : pyStartsWith s "mcp__indesign__" <;>
            simp [htool, hname, dictGetD, asObj, asStr, h4, h1]
  | null => simp [baseEnvelopeOK] at hok
  | bool b => simp [baseEnvelopeOK] at hok
  | num n => simp [baseEnvelopeOK] at hok
  | str s => simp [baseEnvelopeOK] at hok
  | arr xs => simp [baseEnvelopeOK] at hok
  | fdiv a b => simp [baseEnvelopeOK] at hok


theorem collector_noop_without_session (env : Env) (input : Json)
    (nowMs : Int) (nowIso : String) (fsW : FileSys) (mkF apF stF : Bool)
    (h1 : pyTruthy env.evolutionSessionId = false)
    (hok : baseEnvelopeOK input = true) :
    TelemetryCollector.collector_main env (some input) nowMs nowIso fsW mkF
      apF stF = ⟨input, [], env⟩ := by
  have hsw : pyStartsWith "" "mcp__indesign__" = false := by decide
  cases input with
  | obj fields =>
      unfold baseEnvelopeOK at hok
      unfold TelemetryCollector.collector_main TelemetryCollector.collector_body
      rcases htool : lookupJ fields "tool" with _ | v
      · simp [htool, dictGetD, asObj, asStr, lookupJ, hsw]
      · rcases v with _ | _ | _ | _ | _ | tfs | _ <;> simp [htool] at hok
        rcases hname : lookupJ tfs "name" with _ | w
        · simp [htool, hname, dictGetD, asObj, asStr, hsw]
        · rcases w with _ | _ | _ | s | _ | _ | _ <;>
            simp [htool, hname] at hok <;>
            cases h4 : pyStartsWith s "mcp__indesign__" <;>
            simp [htool, hname, dictGetD, asObj, asStr, h4, h1]
  | null => simp [baseEnvelopeOK] at hok
  | bool b => simp [baseEnvelopeOK] at hok
  | num n => simp [baseEnvelopeOK] at hok
  | str s => simp [baseEnvelopeOK] at hok
  | arr xs => simp [baseEnvelopeOK] at hok
  | fdiv a b => simp [baseEnvelopeOK] at hok

theorem checkpoint_noop_without_session (env : Env) (input : Json)
    (now nowMs : Int) (nowIso tsStr : String) (fsW : FileSys)
    (f m1 m2 a r : Bool)
    (h1 : pyTruthy env.evolutionSessionId = false)
    (h2 : pyTruthy env.telemetrySessionId = false) :
    CheckpointManager.checkpoint_main env (some input) now nowMs nowIso tsStr
      fsW f m1 m2 a r = ⟨input, [], env⟩ := by
  unfold CheckpointManager.checkpoint_main
  have hsid : pyTruthy (get_session_info env).session_id = false := by
    simp [get_session_info, pyOrS, h1, h2]
  simp [hsid]

/-- The scratch metadata write the interceptor performs for a qualifying
prompt. -/
def interceptMetadataEffect (prompt : String) (nowSec : Int)
    (randHex nowIso : String) : Effect :=
  .writeJson "/tmp"
    ("evolution-" ++ TaskInterceptor.sessionIdStr nowSec randHex ++ ".json")
    (.obj [("session_id", .str (TaskInterceptor.sessionIdStr nowSec randHex)),
           ("reference",
             optStrJson (TaskInterceptor.extract_reference_info prompt)),
           ("start_time", .str nowIso),
           ("intercepted", .bool true)])

theorem interceptor_run (env : Env) (input : Json) (nowSec : Int)
    (randHex nowIso : String) (hok : taskEnvelopeOK input = true) :
    (match taskPromptOf input with
     | some prompt =>
         if TaskInterceptor.is_evolution_prompt prompt then
           TaskInterceptor.interceptor_main env (some input) nowSec randHex
               nowIso false
             = ⟨input, [interceptMetadataEffect prompt nowSec randHex nowIso],
                (TaskInterceptor.setup_evolution_session env nowSec
                  randHex).2⟩
         else
           TaskInterceptor.interceptor_main env (some input) nowSec randHex
             nowIso false = ⟨input, [], env⟩
     | none =>
         TaskInterceptor.interceptor_main env (some input) nowSec randHex
           nowIso false = ⟨input, [], env⟩) := by
  cases input with
  | obj fields =>
      unfold taskEnvelopeOK at hok
      unfold taskPromptOf
      unfold TaskInterceptor.interceptor_main TaskInterceptor.interceptor_body
      rcases htool : lookupJ fields "tool" with _ | v
      · simp [htool, dictGetD, asObj, asStr, lookupJ,
          TaskInterceptor.isTaskName]
      · rcases v with _ | _ | _ | _ | _ | tfs | _ <;> simp [htool] at hok
        rcases hname : lookupJ tfs "name" with _ | w
        · simp [htool, hname, dictGetD, asObj, asStr,
            TaskInterceptor.isTaskName]
        · rcases w with _ | _ | _ | s | _ | _ | _ <;>
            simp only [htool, hname] at hok ⊢ <;>
            try (simp [htool, hname, dictGetD, asObj, asStr,
              TaskInterceptor.isTaskName]; done)
          by_cases hs : s = "Task"
          · subst hs
            simp only [if_pos rfl] at hok ⊢
            rcases hargs : lookupJ tfs "arguments" with _ | u
            · simp only [hargs] at hok ⊢
              cases h6 : TaskInterceptor.is_evolution_prompt "" <;>
                simp [htool, hname, hargs, dictGetD, asObj, asStr,
                  TaskInterceptor.isTaskName, lookupJ, h6,
                  TaskInterceptor.setup_evolution_session,
                  interceptMetadataEffect, TaskInterceptor.sessionIdStr]
            · rcases u with _ | _ | _ | _ | _ | pfs | _ <;>
                simp only [hargs] at hok ⊢ <;> try (exfalso; revert hok; simp; done)
              rcases hpr : lookupJ pfs "prompt" with _ | w2
              · simp only [hpr] at hok ⊢
                cases h6 : TaskInterceptor.is_evolution_prompt "" <;>
                  simp [htool, hname, hargs, hpr, dictGetD, asObj, asStr,
                    TaskInterceptor.isTaskName, h6,
                    TaskInterceptor.setup_evolution_session,
                    interceptMetadataEffect, TaskInterceptor.sessionIdStr]
              · rcases w2 with _ | _ | _ | p | _ | _ | _ <;>
                  simp only [hpr] at hok ⊢ <;> try (exfalso; revert hok; simp; done)
                cases h6 : TaskInterceptor.is_evolution_prompt p <;>
                  simp [htool, hname, hargs, hpr, dictGetD, asObj, asStr,
                    TaskInterceptor.isTaskName, h6,
                    TaskInterceptor.setup_evolution_session,
                    interceptMetadataEffect, TaskInterceptor.sessionIdStr]
          · simp [htool, hname, dictGetD, asObj, asStr,
              TaskInterceptor.isTaskName, hs]
  | null => simp [taskEnvelopeOK] at hok
  | bool b => simp [taskEnvelopeOK] at hok
  | num n => simp [taskEnvelopeOK] at hok
  | str s => simp [taskEnvelopeOK] at hok
  | arr xs => simp [taskEnvelopeOK] at hok
  | fdiv a b => simp [taskEnvelopeOK] at hok


/-- A concrete evolution-style prompt: it matches the four vocabulary
phrases "recreate this", "indesign", "book page layout" and
"reference image". -/
def evoPromptStr : String :=
  "Recreate this InDesign book page layout from the reference image"

/-- A concrete well-formed Task envelope carrying `evoPromptStr`. -/
def qualifyingEnvelope : Json :=
  .obj [("tool", .obj [("name", .str "Task"),
    ("arguments", .obj [("prompt", .str evoPromptStr)])])]

/-- C1 (amended): for every envelope processed while no session id is in
the environment, the pre-capture, post-capture and checkpoint entry points
write the input back unchanged and perform zero durable side effects; the
classify-and-start entry point also writes the input back unchanged, but
when the envelope is a Task call whose prompt classifies as evolutionary it
creates the scratch metadata file and publishes the session context
(otherwise it too performs zero durable side effects). -/
theorem C1_amended_noop_without_session :
    ∀ (env : Env) (input : Json),
      pyTruthy env.evolutionSessionId = false →
      pyTruthy env.telemetrySessionId = false →
      (∀ (nowMs : Int) (mkF apF : Bool), baseEnvelopeOK input = true →
        TelemetryEnhancer.enhancer_main env (some input) nowMs mkF apF
          = ⟨input, [], env⟩) ∧
      (∀ (nowMs : Int) (nowIso : String) (fsW : FileSys)
          (mkF apF stF : Bool), baseEnvelopeOK input = true →
        TelemetryCollector.collector_main env (some input) nowMs nowIso fsW
          mkF apF stF = ⟨input, [], env⟩) ∧
      (∀ (now nowMs : Int) (nowIso tsStr : String) (fsW : FileSys)
          (f m1 m2 a r : Bool),
        CheckpointManager.checkpoint_main env (some input) now nowMs nowIso
          tsStr fsW f m1 m2 a r = ⟨input, [], env⟩) ∧
      (∀ (nowSec : Int) (randHex nowIso : String),
        taskEnvelopeOK input = true →
        (match taskPromptOf input with
         | some prompt =>
             if TaskInterceptor.is_evolution_prompt prompt then
               TaskInterceptor.interceptor_main env (some input) nowSec
                   randHex nowIso false
                 = ⟨input,
                    [interceptMetadataEffect prompt nowSec randHex nowIso],
                    (TaskInterceptor.setup_evolution_session env nowSec
                      randHex).2⟩
             else
               TaskInterceptor.interceptor_main env (some input) nowSec
                 randHex nowIso false = ⟨input, [], env⟩
         | none =>
             TaskInterceptor.interceptor_main env (some input) nowSec randHex
               nowIso false = ⟨input, [], env⟩)) := by
  intro env input h1 h2
  exact ⟨fun nowMs mkF apF hok =>
      enhancer_noop_without_session env input nowMs mkF apF h1 hok,
    fun nowMs nowIso fsW mkF apF stF hok =>
      collector_noop_without_session env input nowMs nowIso fsW mkF apF stF
        h1 hok,
    fun now nowMs nowIso tsStr fsW f m1 m2 a r =>
      checkpoint_noop_without_session env input now nowMs nowIso tsStr fsW
        f m1 m2 a r h1 h2,
    fun nowSec randHex nowIso hok =>
      interceptor_run env input nowSec randHex nowIso hok⟩

/-- Witness for C1 (amended) on the empty environment: a pre-capture
invocation is a pure pass-through, and the classify-and-start invocation on
the qualifying envelope passes the input through while creating the scratch
metadata file and publishing the session context. -/
theorem C1_amended_noop_without_session_witness :
    TelemetryEnhancer.enhancer_main {} (some qualifyingEnvelope) 0 false false
      = ⟨qualifyingEnvelope, [], {}⟩ ∧
    TaskInterceptor.interceptor_main {} (some qualifyingEnvelope) 100
        "abcd1234" "T0" false
      = ⟨qualifyingEnvelope,
         [interceptMetadataEffect evoPromptStr 100 "abcd1234" "T0"],
         (TaskInterceptor.setup_evolution_session {} 100 "abcd1234").2⟩ := by
  have h := C1_amended_noop_without_session {} qualifyingEnvelope rfl rfl
  refine ⟨h.1 0 false false (by decide), ?_⟩
  have h4 := h.2.2.2 100 "abcd1234" "T0" (by decide)
  simp only [show taskPromptOf qualifyingEnvelope = some evoPromptStr from
    rfl, show TaskInterceptor.is_evolution_prompt evoPromptStr = true from
    by decide, if_true] at h4
  exact h4

/-- C1 counterexample: with no session context in the environment, the
classify-and-start entry point on a qualifying Task envelope performs a
durable side effect (it writes the scratch metadata file), refuting the
claimed "zero durable side effects" for every entry point. -/
theorem C1_counterexample_interceptor_writes_scratch :
    ¬((TaskInterceptor.interceptor_main {} (some qualifyingEnvelope) 100
        "abcd1234" "T0" false).effects = []) := by
  intro h
  have h1 : (TaskInterceptor.interceptor_main {} (some qualifyingEnvelope)
      100 "abcd1234" "T0" false).effects.length = 1 := rfl
  rw [h] at h1
  simp at h1

/-- C3 (code-bug evidence): classifying the qualifying envelope publishes
the session id and `TELEMETRY_ENABLED="true"` but never the
`EVOLUTION_SESSION_ACTIVE` flag, so the checkpoint entry point running in
the resulting environment performs none of the finalize/archive/cleanup
effects. -/
theorem C3_active_flag_never_published :
    (TaskInterceptor.interceptor_main {} (some qualifyingEnvelope) 100
        "abcd1234" "T0" false).envAfter.evolutionSessionId
      = some (TaskInterceptor.sessionIdStr 100 "abcd1234") ∧
    (TaskInterceptor.interceptor_main {} (some qualifyingEnvelope) 100
        "abcd1234" "T0" false).envAfter.telemetryEnabled = some "true" ∧
    (TaskInterceptor.interceptor_main {} (some qualifyingEnvelope) 100
        "abcd1234" "T0" false).envAfter.evolutionSessionActive = none ∧
    (CheckpointManager.checkpoint_main
        (TaskInterceptor.interceptor_main {} (some qualifyingEnvelope) 100
          "abcd1234" "T0" false).envAfter
        (some (.obj [])) 5000 5000000 "ISO" "TS" ⟨[]⟩ false false false
        false false).effects = [] := by
  refine ⟨rfl, rfl, rfl, rfl⟩


theorem cleanup_effects_are_removes (now : Int) (fsW : FileSys) :
    ∀ e ∈ CheckpointManager.cleanup_temporary_files now fsW,
      ∃ d n, e = Effect.removeFile d n := by
  intro e he
  unfold CheckpointManager.cleanup_temporary_files at he
  obtain ⟨g, _, rfl⟩ := List.mem_map.mp he
  exact ⟨g.dir, g.name, rfl⟩

theorem finalize_shapes (sid : String) (nowMs : Int) (nowIso : String)
    (fF : Bool) :
    CheckpointManager.finalize_telemetry_session sid nowMs nowIso fF = [] ∨
    ∃ l, CheckpointManager.finalize_telemetry_session sid nowMs nowIso fF
      = [Effect.appendLog telemetryDir (sid ++ ".jsonl") l] := by
  unfold CheckpointManager.finalize_telemetry_session
  rcases h1 : sid == "" with - | -
  · rcases h2 : fF with - | -
    · right
      simp [h1, h2]
    · left
      simp [h1, h2]
  · left
    simp [h1]

/-- C7 (amended): when the body of the archive `try` fails (no archive
path is produced, the archive directories having been created), the
resume-guide write is skipped, but the finalize append, the stale-scratch
sweep, and the clearing of the session id and active flag all still
proceed.  When instead one of the two archive-directory creations fails —
they sit outside the `try` — the failure escapes to the outer handler: no
archive path is produced and the resume guide is skipped, the finalize
append has already run, but the sweep and the clearing do not proceed and
the substitute empty object is printed. -/
theorem C7_archive_failure_isolation :
    ∀ (env : Env) (stdin : Option Json) (now nowMs : Int)
      (nowIso tsStr : String) (fsW : FileSys) (finF resF : Bool),
      pyTruthy (get_session_info env).session_id = true →
      pyTruthy env.evolutionSessionActive = true →
      ((let sid := (get_session_info env).session_id.getD ""
        let e1 := CheckpointManager.finalize_telemetry_session sid nowMs
          nowIso finF
        let pre : List Effect := [.mkdirE CheckpointManager.archiveRoot,
          .mkdirE (CheckpointManager.archiveRoot ++ "/" ++ tsStr ++ "_"
            ++ sid)]
        (CheckpointManager.checkpoint_main env stdin now nowMs nowIso tsStr
            fsW finF false false true resF).effects
          = e1 ++ pre ++ CheckpointManager.cleanup_temporary_files now
              (applyEffects now (applyEffects now fsW e1) pre)) ∧
       (∀ d n c, Effect.writeText d n c ∉
         (CheckpointManager.checkpoint_main env stdin now nowMs nowIso tsStr
           fsW finF false false true resF).effects) ∧
       (CheckpointManager.checkpoint_main env stdin now nowMs nowIso tsStr
         fsW finF false false true resF).envAfter.evolutionSessionId
         = none ∧
       (CheckpointManager.checkpoint_main env stdin now nowMs nowIso tsStr
         fsW finF false false true resF).envAfter.evolutionSessionActive
         = none) ∧
      (∀ (m2 aF : Bool),
        (CheckpointManager.checkpoint_main env stdin now nowMs nowIso tsStr
            fsW finF true m2 aF resF).effects
          = CheckpointManager.finalize_telemetry_session
              ((get_session_info env).session_id.getD "") nowMs nowIso
              finF ∧
        (CheckpointManager.checkpoint_main env stdin now nowMs nowIso tsStr
          fsW finF true m2 aF resF).envAfter = env ∧
        (CheckpointManager.checkpoint_main env stdin now nowMs nowIso tsStr
          fsW finF true m2 aF resF).output = .obj []) ∧
      (∀ aF : Bool,
        (CheckpointManager.checkpoint_main env stdin now nowMs nowIso tsStr
            fsW finF false true aF resF).effects
          = CheckpointManager.finalize_telemetry_session
              ((get_session_info env).session_id.getD "") nowMs nowIso finF
            ++ [.mkdirE CheckpointManager.archiveRoot] ∧
        (CheckpointManager.checkpoint_main env stdin now nowMs nowIso tsStr
          fsW finF false true aF resF).envAfter = env ∧
        (CheckpointManager.checkpoint_main env stdin now nowMs nowIso tsStr
          fsW finF false true aF resF).output = .obj []) := by
  intro env stdin now nowMs nowIso tsStr fsW finF resF h1 h2
  rcases hsid : (get_session_info env).session_id with - | s
  · rw [hsid] at h1
    simp [pyTruthy] at h1
  have hs : (s == "") = false := by
    rw [hsid] at h1
    simpa [pyTruthy] using h1
  have hcond : (pyTruthy (get_session_info env).session_id &&
      pyTruthy env.evolutionSessionActive) = true := by
    rw [hsid] at h1 ⊢
    rw [h1, h2]
    rfl
  have h1s : pyTruthy (some s) = true := by
    rw [hsid] at h1
    exact h1
  have harchOk : ∀ fsX : FileSys,
      CheckpointManager.archive_evolution_data s tsStr nowIso fsX false
        false true = .ok (none, [.mkdirE CheckpointManager.archiveRoot,
          .mkdirE (CheckpointManager.archiveRoot ++ "/" ++ tsStr ++ "_"
            ++ s)]) := by
    intro fsX
    unfold CheckpointManager.archive_evolution_data
    simp [hs]
  have harchM1 : ∀ (fsX : FileSys) (m2 aF : Bool),
      CheckpointManager.archive_evolution_data s tsStr nowIso fsX true m2 aF
        = .error [] := by
    intro fsX m2 aF
    unfold CheckpointManager.archive_evolution_data
    simp [hs]
  have harchM2 : ∀ (fsX : FileSys) (aF : Bool),
      CheckpointManager.archive_evolution_data s tsStr nowIso fsX false true
        aF = .error [.mkdirE CheckpointManager.archiveRoot] := by
    intro fsX aF
    unfold CheckpointManager.archive_evolution_data
    simp [hs]
  have hmain : CheckpointManager.checkpoint_main env stdin now nowMs nowIso
      tsStr fsW finF false false true resF
      = (let sid := s
         let e1 := CheckpointManager.finalize_telemetry_session sid nowMs
           nowIso finF
         let pre : List Effect := [.mkdirE CheckpointManager.archiveRoot,
           .mkdirE (CheckpointManager.archiveRoot ++ "/" ++ tsStr ++ "_"
             ++ sid)]
         ⟨stdin.getD (.obj []), e1 ++ pre ++
            CheckpointManager.cleanup_temporary_files now
              (applyEffects now (applyEffects now fsW e1) pre),
          { env with evolutionSessionId := none,
                     evolutionSessionActive := none }⟩) := by
    unfold CheckpointManager.checkpoint_main
    simp only [hcond, if_true, hsid, Option.getD_some, h1s, h2,
      Bool.and_self, harchOk]
    simp [CheckpointManager.generate_resume_instructions, applyEffects]
  have hmainB : ∀ (m2 aF : Bool),
      CheckpointManager.checkpoint_main env stdin now nowMs nowIso tsStr fsW
        finF true m2 aF resF
      = ⟨.obj [], CheckpointManager.finalize_telemetry_session s nowMs
          nowIso finF, env⟩ := by
    intro m2 aF
    unfold CheckpointManager.checkpoint_main
    simp only [hcond, if_true, hsid, Option.getD_some, h1s, h2,
      Bool.and_self, harchM1, List.append_nil]
  have hmainC : ∀ aF : Bool,
      CheckpointManager.checkpoint_main env stdin now nowMs nowIso tsStr fsW
        finF false true aF resF
      = ⟨.obj [], CheckpointManager.finalize_telemetry_session s nowMs
          nowIso finF ++ [.mkdirE CheckpointManager.archiveRoot], env⟩ := by
    intro aF
    unfold CheckpointManager.checkpoint_main
    simp only [hcond, if_true, hsid, Option.getD_some, h1s, h2,
      Bool.and_self, harchM2]
  refine ⟨⟨?_, ?_, ?_, ?_⟩, ?_, ?_⟩
  · simp only [hmain, hsid, Option.getD_some]
  · intro d n c hmem
    simp only [hmain] at hmem
    rcases List.mem_append.mp hmem with hm | hm
    · rcases List.mem_append.mp hm with hm2 | hm2
      · rcases finalize_shapes s nowMs nowIso finF with hf | ⟨l, hf⟩ <;>
          rw [hf] at hm2 <;> simp at hm2
      · simp at hm2
    · obtain ⟨d2, n2, heq⟩ := cleanup_effects_are_removes now _ _ hm
      exact Effect.noConfusion heq
  · simp only [hmain]
  · simp only [hmain]
  · intro m2 aF
    refine ⟨?_, ?_, ?_⟩ <;> simp [hmainB m2 aF]
  · intro aF
    refine ⟨?_, ?_, ?_⟩ <;> simp [hmainC aF]

/-- Environment and filesystem for the C7 counterexample: an active session
and a stale scratch file the sweep would delete. -/
def c7env : Env :=
  { evolutionSessionId := some "S1", evolutionSessionActive := some "true" }

def c7fs : FileSys :=
  ⟨[⟨"/tmp", "evolution-OLD.json", 0, .jsonF (.obj [])⟩]⟩

/-- C7 counterexample: when creating the archive root itself fails — the
`os.makedirs` calls sit outside the archive `try` — no archive path is
produced, yet the checkpoint aborts to the outer handler: only the finalize
append happens, the stale-scratch sweep (which would have deleted the old
scratch file, as the last conjunct shows) and the clearing of the session
id and active flag do not proceed, and the substitute empty object is
printed. -/
theorem C7_counterexample_makedirs_abort :
    (CheckpointManager.checkpoint_main c7env (some (.obj [("k", .num 7)]))
        5000 5000000 "ISO" "TS" c7fs false true false false false).effects
      = CheckpointManager.finalize_telemetry_session "S1" 5000000 "ISO"
          false ∧
    (CheckpointManager.checkpoint_main c7env (some (.obj [("k", .num 7)]))
        5000 5000000 "ISO" "TS" c7fs false true false false
        false).envAfter.evolutionSessionId = some "S1" ∧
    (CheckpointManager.checkpoint_main c7env (some (.obj [("k", .num 7)]))
        5000 5000000 "ISO" "TS" c7fs false true false false
        false).envAfter.evolutionSessionActive = some "true" ∧
    (CheckpointManager.checkpoint_main c7env (some (.obj [("k", .num 7)]))
        5000 5000000 "ISO" "TS" c7fs false true false false false).output
      = .obj [] ∧
    CheckpointManager.cleanup_temporary_files 5000 c7fs
      = [.removeFile "/tmp" "evolution-OLD.json"] :=
  ⟨rfl, rfl, rfl, rfl, rfl⟩

/-- Witness for C7 (amended) on a concrete active-session environment with
a telemetry log and a scratch file: the try-body failure still clears the
session id, while a makedirs failure leaves the environment untouched. -/
theorem C7_archive_failure_isolation_witness :
    (CheckpointManager.checkpoint_main
        { evolutionSessionId := some "S1",
          evolutionSessionActive := some "true" }
        (some (.obj [])) 5000 5000000 "ISO" "TS"
        ⟨[⟨telemetryDir, "S1.jsonl", 0, .lines [.str "r1"]⟩,
          ⟨"/tmp", "evolution-S1.json", 0, .jsonF (.obj [])⟩]⟩
        false false false true false).envAfter.evolutionSessionId = none ∧
    (CheckpointManager.checkpoint_main
        { evolutionSessionId := some "S1",
          evolutionSessionActive := some "true" }
        (some (.obj [])) 5000 5000000 "ISO" "TS"
        ⟨[⟨telemetryDir, "S1.jsonl", 0, .lines [.str "r1"]⟩,
          ⟨"/tmp", "evolution-S1.json", 0, .jsonF (.obj [])⟩]⟩
        false true false false false).envAfter
      = { evolutionSessionId := some "S1",
          evolutionSessionActive := some "true" } := by
  have h := C7_archive_failure_isolation
    { evolutionSessionId := some "S1", evolutionSessionActive := some "true" }
    (some (.obj [])) 5000 5000000 "ISO" "TS"
    ⟨[⟨telemetryDir, "S1.jsonl", 0, .lines [.str "r1"]⟩,
      ⟨"/tmp", "evolution-S1.json", 0, .jsonF (.obj [])⟩]⟩
    false false rfl rfl
  exact ⟨h.1.2.2.1, (h.2.1 false false).2.1⟩


theorem filePred_self (d n : String) (now : Int) (dat : FData) :
    filePred d n ⟨d, n, now, dat⟩ = true := by
  simp [filePred]

theorem findFile_setFile_same (fs : FileSys) (now : Int) (d n : String)
    (dat : FData) :
    findFile (setFile fs now d n dat) d n = some ⟨d, n, now, dat⟩ := by
  obtain ⟨files⟩ := fs
  unfold setFile findFile
  split
  case isTrue h =>
    simp only [findFile] at h
    induction files with
    | nil => simp at h
    | cons c t ih =>
        by_cases pc : filePred d n c = true
        · have hd : c.dir = d := by
            simp only [filePred, Bool.and_eq_true, beq_iff_eq] at pc
            exact pc.1
          have hn : c.name = n := by
            simp only [filePred, Bool.and_eq_true, beq_iff_eq] at pc
            exact pc.2
          have pnew : filePred d n (⟨c.dir, c.name, now, dat⟩ : FileRec)
              = true := by
            simp [filePred, hd, hn]
          simp only [List.map_cons, pc, if_true]
          rw [@List.find?_cons_of_pos _ (filePred d n) _ _ pnew]
          rw [hd, hn]
        · have pc' : ¬filePred d n c = true := pc
          simp only [List.map_cons, pc, if_false, Bool.false_eq_true]
          rw [@List.find?_cons_of_neg _ (filePred d n) c _ pc']
          rw [@List.find?_cons_of_neg _ (filePred d n) c _ pc'] at h
          exact ih h
  case isFalse h =>
    simp only [findFile] at h
    induction files with
    | nil =>
        simp only [List.nil_append]
        rw [@List.find?_cons_of_pos _ (filePred d n) _ _
          (filePred_self d n now dat)]
    | cons c t ih =>
        have pc : ¬filePred d n c = true := by
          intro hc
          rw [@List.find?_cons_of_pos _ (filePred d n) c _ hc] at h
          simp at h
        simp only [List.cons_append]
        rw [@List.find?_cons_of_neg _ (filePred d n) c _ pc]
        rw [@List.find?_cons_of_neg _ (filePred d n) c _ pc] at h
        exact ih h

theorem findFile_setFile_other (fs : FileSys) (now : Int)
    (d n d' n' : String) (dat : FData) (hne : ¬(d' = d ∧ n' = n)) :
    findFile (setFile fs now d n dat) d' n' = findFile fs d' n' := by
  obtain ⟨files⟩ := fs
  unfold setFile findFile
  split
  case isTrue h =>
    clear h
    induction files with
    | nil => simp
    | cons c t ih =>
        by_cases pc : filePred d n c = true
        · have pc2 : ¬filePred d' n' c = true := by
            simp only [filePred, Bool.and_eq_true, beq_iff_eq] at pc ⊢
            rintro ⟨h1, h2⟩
            exact hne ⟨h1.symm.trans pc.1, h2.symm.trans pc.2⟩
          have pnew : ¬filePred d' n' (⟨c.dir, c.name, now, dat⟩ : FileRec)
              = true := pc2
          simp only [List.map_cons, pc, if_true]
          rw [@List.find?_cons_of_neg _ (filePred d' n') _ _ pnew,
            @List.find?_cons_of_neg _ (filePred d' n') c _ pc2]
          exact ih
        · simp only [List.map_cons, pc, if_false, Bool.false_eq_true]
          by_cases pc2 : filePred d' n' c = true
          · rw [@List.find?_cons_of_pos _ (filePred d' n') c _ pc2,
              @List.find?_cons_of_pos _ (filePred d' n') c _ pc2]
          · rw [@List.find?_cons_of_neg _ (filePred d' n') c _ pc2,
              @List.find?_cons_of_neg _ (filePred d' n') c _ pc2]
            exact ih
  case isFalse h =>
    clear h
    induction files with
    | nil =>
        simp only [List.nil_append]
        have pnew : ¬filePred d' n' (⟨d, n, now, dat⟩ : FileRec) = true := by
          simp only [filePred, Bool.and_eq_true, beq_iff_eq]
          rintro ⟨h1, h2⟩
          exact hne ⟨h1.symm, h2.symm⟩
        rw [@List.find?_cons_of_neg _ (filePred d' n') _ _ pnew]
    | cons c t ih =>
        simp only [List.cons_append]
        by_cases pc2 : filePred d' n' c = true
        · rw [@List.find?_cons_of_pos _ (filePred d' n') c _ pc2,
            @List.find?_cons_of_pos _ (filePred d' n') c _ pc2]
        · rw [@List.find?_cons_of_neg _ (filePred d' n') c _ pc2,
            @List.find?_cons_of_neg _ (filePred d' n') c _ pc2]
          exact ih

theorem fileData_setFile_same (fs : FileSys) (now : Int) (d n : String)
    (dat : FData) : fileData (setFile fs now d n dat) d n = some dat := by
  unfold fileData
  rw [findFile_setFile_same]
  rfl

theorem fileData_setFile_other (fs : FileSys) (now : Int)
    (d n d' n' : String) (dat : FData) (hne : ¬(d' = d ∧ n' = n)) :
    fileData (setFile fs now d n dat) d' n' = fileData fs d' n' := by
  unfold fileData
  rw [findFile_setFile_other fs now d n d' n' dat hne]


theorem log_ne_stats (sid : String) :
    ¬(sid ++ ".jsonl" = sid ++ "-stats.json") := by
  intro h
  have h2 : (sid ++ ".jsonl").data.length
      = (sid ++ "-stats.json").data.length := by rw [h]
  have e1 : (sid ++ ".jsonl").data = sid.data ++ ".jsonl".data := rfl
  have e2 : (sid ++ "-stats.json").data = sid.data ++ "-stats.json".data :=
    rfl
  have l1 : (".jsonl".data).length = 6 := rfl
  have l2 : (("-stats.json").data).length = 11 := rfl
  rw [e1, e2, List.length_append, List.length_append, l1, l2] at h2
  omega

theorem logLines_appendLog (now : Int) (fsW : FileSys) (sid : String)
    (r : Json) :
    logLines (applyEffect now fsW
        (.appendLog telemetryDir (sid ++ ".jsonl") r)) sid
      = logLines fsW sid ++ [r] := by
  unfold applyEffect logLines
  rw [fileData_setFile_same]

theorem logLines_mkdir (now : Int) (fsW : FileSys) (sid d : String) :
    logLines (applyEffect now fsW (.mkdirE d)) sid = logLines fsW sid := rfl

theorem logLines_writeJson_stats (now : Int) (fsW : FileSys) (sid : String)
    (v : Json) :
    logLines (applyEffect now fsW
        (.writeJson telemetryDir (sid ++ "-stats.json") v)) sid
      = logLines fsW sid := by
  have hne : ¬(telemetryDir = telemetryDir ∧
      sid ++ ".jsonl" = sid ++ "-stats.json") := by
    rintro ⟨-, h2⟩
    exact log_ne_stats sid h2
  unfold applyEffect logLines
  rw [fileData_setFile_other fsW now telemetryDir (sid ++ "-stats.json")
    telemetryDir (sid ++ ".jsonl") (.jsonF v) hne]

theorem update_stats_shapes (sid nowIso : String) (fsW : FileSys)
    (flag : Bool) :
    TelemetryCollector.update_session_statistics sid nowIso fsW flag = [] ∨
    ∃ v, TelemetryCollector.update_session_statistics sid nowIso fsW flag
      = [.writeJson telemetryDir (sid ++ "-stats.json") v] := by
  unfold TelemetryCollector.update_session_statistics
  rcases flag with - | -
  · rcases h : fileData fsW telemetryDir (sid ++ "-stats.json") with _ | dat
    · right
      simp only [h]
      exact ⟨_, rfl⟩
    · rcases dat with ls | v | t
      · left
        simp [h]
      · rcases v with _ | b | k | st | xs | ofs | ⟨a, b⟩
        · left; simp [h]
        · left; simp [h]
        · left; simp [h]
        · left; simp [h]
        · left; simp [h]
        · simp only [h]
          rcases hg : dictGetD ofs "total_tools" (.num 0) with
            _ | b2 | k2 | st2 | xs2 | ofs2 | ⟨a2, b2⟩
          · left; simp [hg]
          · right; simp only [hg]; exact ⟨_, rfl⟩
          · right; simp only [hg]; exact ⟨_, rfl⟩
          · left; simp [hg]
          · left; simp [hg]
          · left; simp [hg]
          · left; simp [hg]
        · left; simp [h]
      · left
        simp [h]
  · left
    simp

theorem logLines_update_stats (now : Int) (fsW fsR : FileSys)
    (sid nowIso : String) (flag : Bool) :
    logLines (applyEffects now fsW
        (TelemetryCollector.update_session_statistics sid nowIso fsR flag))
      sid = logLines fsW sid := by
  rcases update_stats_shapes sid nowIso fsR flag with h | ⟨v, h⟩ <;>
    rw [h] <;> simp [applyEffects, logLines_writeJson_stats]


/-- The record a capture invocation appends to the log for a well-formed
envelope: the enhanced pre-capture record or the completed post-capture
record. -/
def recOf (env : Env) (nowMs : Int) : CapEvent → Json
  | .pre t a =>
      .obj (setK (TelemetryEnhancer.enhance_telemetry_capture env
        [("name", .str t), ("arguments", .obj a)] nowMs) "usage_analysis"
        (TelemetryEnhancer.analyze_tool_usage t a))
  | .post t a r m =>
      match TelemetryCollector.complete_telemetry_record env
        [("name", .str t), ("arguments", .obj a)] (.obj r) m nowMs with
      | .ok rec => .obj rec
      | .error _ => .null

theorem enhancer_active_effects (env : Env) (s t : String)
    (a : List (String × Json)) (nowMs : Int)
    (he : env.evolutionSessionId = some s) (hs : s ≠ "")
    (ht : pyStartsWith t "mcp__indesign__" = true) (apF : Bool) :
    (TelemetryEnhancer.enhancer_main env (some (mkPreEnvelope t a)) nowMs
      false apF).effects
    = [.mkdirE telemetryDir] ++
      (if apF then [] else [.appendLog telemetryDir (s ++ ".jsonl")
        (recOf env nowMs (.pre t a))]) := by
  have hss : pyTruthy (some s) = true := by
    simp [pyTruthy, hs]
  have htr : pyTruthy env.evolutionSessionId = true := by
    rw [he]
    exact hss
  have hsi : (get_session_info env).session_id = some s := by
    simp [get_session_info, pyOrS, he, hss]
  simp [TelemetryEnhancer.enhancer_main, TelemetryEnhancer.enhancer_body,
    mkPreEnvelope, asObj, asStr, dictGetD, lookupJ, ht, htr,
    write_telemetry_record, TelemetryEnhancer.enhance_telemetry_capture,
    setK, optStrJson, hsi, pyTruthyJson, pyStr, hs, recOf]


theorem collector_active_effects (env : Env) (s t : String)
    (a r : List (String × Json)) (m : Json) (nowMs : Int) (nowIso : String)
    (fsW : FileSys)
    (he : env.evolutionSessionId = some s) (hs : s ≠ "")
    (ht : pyStartsWith t "mcp__indesign__" = true) (apF stF : Bool) :
    (TelemetryCollector.collector_main env (some (mkPostEnvelope t a r m))
      nowMs nowIso fsW false apF stF).effects
    = ([.mkdirE telemetryDir] ++
       (if apF then [] else [.appendLog telemetryDir (s ++ ".jsonl")
         (recOf env nowMs (.post t a r m))])) ++
      TelemetryCollector.update_session_statistics s nowIso
        (applyEffects nowMs fsW ([.mkdirE telemetryDir] ++
          (if apF then [] else [.appendLog telemetryDir (s ++ ".jsonl")
            (recOf env nowMs (.post t a r m))]))) stF := by
  have hss : pyTruthy (some s) = true := by
    simp [pyTruthy, hs]
  have htr : pyTruthy env.evolutionSessionId = true := by
    rw [he]
    exact hss
  have hsi : (get_session_info env).session_id = some s := by
    simp [get_session_info, pyOrS, he, hss]
  have hps : pyTruthyJson (.str s) = true := by
    simp [pyTruthyJson, hs]
  have hpystr : pyStr (.str s) = s := rfl
  rcases herr : pyTruthyJson ((lookupJ r "error").getD .null) with - | - <;>
    simp [TelemetryCollector.collector_main,
      TelemetryCollector.collector_body, mkPostEnvelope, asObj, asStr,
      dictGetD, lookupJ, ht, htr, write_telemetry_record,
      TelemetryCollector.complete_telemetry_record,
      TelemetryCollector.analyze_tool_result, setK, optStrJson, hsi,
      hps, hpystr, recOf, herr, hss]


theorem applyEffects_append (now : Int) (fs0 : FileSys)
    (l1 l2 : List Effect) :
    applyEffects now fs0 (l1 ++ l2)
      = applyEffects now (applyEffects now fs0 l1) l2 := by
  simp [applyEffects, List.foldl_append]

theorem capStep_log (env : Env) (s : String) (nowMs : Int) (nowIso : String)
    (fsW : FileSys) (e : CapEvent)
    (he : env.evolutionSessionId = some s) (hs : s ≠ "")
    (ht : pyStartsWith e.toolName "mcp__indesign__" = true) :
    logLines (capStep env nowMs nowIso fsW e) s
      = logLines fsW s ++ [recOf env nowMs e] := by
  cases e with
  | pre t a =>
      have ht' : pyStartsWith t "mcp__indesign__" = true := ht
      rw [show capStep env nowMs nowIso fsW (.pre t a)
          = applyEffects nowMs fsW (TelemetryEnhancer.enhancer_main env
            (some (mkPreEnvelope t a)) nowMs false false).effects from rfl]
      rw [enhancer_active_effects env s t a nowMs he hs ht' false]
      rw [show ([Effect.mkdirE telemetryDir] ++
          (if false then [] else [Effect.appendLog telemetryDir
            (s ++ ".jsonl") (recOf env nowMs (.pre t a))]))
          = [Effect.mkdirE telemetryDir, Effect.appendLog telemetryDir
            (s ++ ".jsonl") (recOf env nowMs (.pre t a))] from rfl]
      rw [show applyEffects nowMs fsW [Effect.mkdirE telemetryDir,
          Effect.appendLog telemetryDir (s ++ ".jsonl")
            (recOf env nowMs (.pre t a))]
          = applyEffect nowMs (applyEffect nowMs fsW (.mkdirE telemetryDir))
            (.appendLog telemetryDir (s ++ ".jsonl")
              (recOf env nowMs (.pre t a))) from rfl]
      rw [show applyEffect nowMs fsW (.mkdirE telemetryDir) = fsW from rfl]
      rw [logLines_appendLog]
  | post t a r m =>
      have ht' : pyStartsWith t "mcp__indesign__" = true := ht
      rw [show capStep env nowMs nowIso fsW (.post t a r m)
          = applyEffects nowMs fsW (TelemetryCollector.collector_main env
            (some (mkPostEnvelope t a r m)) nowMs nowIso fsW false false
            false).effects from rfl]
      rw [collector_active_effects env s t a r m nowMs nowIso fsW he hs ht'
        false false]
      rw [applyEffects_append]
      rw [logLines_update_stats]
      rw [show ([Effect.mkdirE telemetryDir] ++
          (if false then [] else [Effect.appendLog telemetryDir
            (s ++ ".jsonl") (recOf env nowMs (.post t a r m))]))
          = [Effect.mkdirE telemetryDir, Effect.appendLog telemetryDir
            (s ++ ".jsonl") (recOf env nowMs (.post t a r m))] from rfl]
      rw [show applyEffects nowMs fsW [Effect.mkdirE telemetryDir,
          Effect.appendLog telemetryDir (s ++ ".jsonl")
            (recOf env nowMs (.post t a r m))]
          = applyEffect nowMs (applyEffect nowMs fsW (.mkdirE telemetryDir))
            (.appendLog telemetryDir (s ++ ".jsonl")
              (recOf env nowMs (.post t a r m))) from rfl]
      rw [show applyEffect nowMs fsW (.mkdirE telemetryDir) = fsW from rfl]
      rw [logLines_appendLog]

theorem runCaptures_log (env : Env) (s : String) (nowMs : Int)
    (nowIso : String) (events : List CapEvent) (fsW : FileSys)
    (he : env.evolutionSessionId = some s) (hs : s ≠ "")
    (hts : ∀ e ∈ events, pyStartsWith e.toolName "mcp__indesign__" = true) :
    logLines (runCaptures env nowMs nowIso fsW events) s
      = logLines fsW s ++ events.map (recOf env nowMs) := by
  induction events generalizing fsW with
  | nil => simp [runCaptures]
  | cons e rest ih =>
      rw [runCaptures]
      rw [ih (capStep env nowMs nowIso fsW e)
        (fun x hx => hts x (List.mem_cons_of_mem e hx))]
      rw [capStep_log env s nowMs nowIso fsW e he hs
        (hts e (List.mem_cons_self e rest))]
      simp

theorem countP_pos_neg (p : CapEvent → Bool) (l : List CapEvent) :
    l.length = l.countP p + l.countP (fun e => !p e) := by
  induction l with
  | nil => simp
  | cons e t ih =>
      by_cases h : p e = true <;> simp [List.countP_cons, h, ih] <;> omega

theorem recOf_capture_source (env : Env) (nowMs : Int) (e : CapEvent) :
    ∃ rec, recOf env nowMs e = .obj rec ∧
      lookupJ rec "capture_source" = some (.str (if e.isPost then
        "hook_postuse" else "hook_preuse")) := by
  cases e with
  | pre t a =>
      refine ⟨_, rfl, ?_⟩
      simp [TelemetryEnhancer.enhance_telemetry_capture, setK, lookupJ,
        CapEvent.isPost]
  | post t a r m =>
      refine ⟨_, rfl, ?_⟩
      rcases herr : pyTruthyJson ((lookupJ r "error").getD .null) with - | -
      · simp [TelemetryCollector.complete_telemetry_record, asObj, dictGetD,
          setK, lookupJ, CapEvent.isPost, herr]
      · simp [TelemetryCollector.complete_telemetry_record, asObj, dictGetD,
          setK, lookupJ, CapEvent.isPost, herr]


/-- C5 (amended): starting from an empty log, running N pre-capture and N
post-capture invocations for the same active session appends exactly 2N
lines, each line a JSON object, with the pre-capture records carrying
`capture_source = "hook_preuse"` and the post-capture records
`"hook_postuse"` (the source's literal marker values). -/
theorem C5_amended_log_shape :
    ∀ (env : Env) (s : String) (nowMs : Int) (nowIso : String)
      (events : List CapEvent) (N : Nat),
      env.evolutionSessionId = some s → s ≠ "" →
      (∀ e ∈ events, pyStartsWith e.toolName "mcp__indesign__" = true) →
      events.countP (fun e => e.isPost) = N →
      events.countP (fun e => !e.isPost) = N →
      (logLines (runCaptures env nowMs nowIso ⟨[]⟩ events) s).length
        = 2 * N ∧
      List.Forall₂ (fun (e : CapEvent) (line : Json) => ∃ rec,
          line = Json.obj rec ∧ lookupJ rec "capture_source"
            = some (.str (if e.isPost then "hook_postuse"
                else "hook_preuse")))
        events (logLines (runCaptures env nowMs nowIso ⟨[]⟩ events) s) := by
  intro env s nowMs nowIso events N he hs hts hpost hpre
  have hlog := runCaptures_log env s nowMs nowIso events ⟨[]⟩ he hs hts
  have hempty : logLines ⟨[]⟩ s = [] := rfl
  rw [hempty, List.nil_append] at hlog
  constructor
  · rw [hlog, List.length_map]
    have := countP_pos_neg (fun e => e.isPost) events
    omega
  · rw [hlog]
    rw [List.forall₂_map_right_iff]
    rw [List.forall₂_same]
    intro e _
    exact recOf_capture_source env nowMs e

/-- Witness for C5 (amended): one pre-capture and one post-capture
invocation on an empty log yield exactly two lines. -/
theorem C5_amended_log_shape_witness :
    (logLines (runCaptures { evolutionSessionId := some "S1" } 0 "I" ⟨[]⟩
      [CapEvent.pre "mcp__indesign__add_text" [],
       CapEvent.post "mcp__indesign__add_text" [] [] (.num 1)]) "S1").length
      = 2 :=
  (C5_amended_log_shape { evolutionSessionId := some "S1" } "S1" 0 "I"
    [CapEvent.pre "mcp__indesign__add_text" [],
     CapEvent.post "mcp__indesign__add_text" [] [] (.num 1)] 1 rfl
    (by decide) (by decide) (by decide) (by decide)).1

/-- The single post-capture run used by the C5 counterexample. -/
def c5run : Run :=
  TelemetryCollector.collector_main { evolutionSessionId := some "S1" }
    (some (mkPostEnvelope "mcp__indesign__add_text" [] [] (.num 1))) 0 "I"
    ⟨[]⟩ false false false

/-- C5 counterexample: the record the post-capture entry point appends
carries `capture_source = "hook_postuse"`, not `"post"` as the claim
states. -/
theorem C5_counterexample_marker_value :
    ((logLines (applyEffects 0 ⟨[]⟩ c5run.effects) "S1").map (fun line =>
      match line with
      | .obj rec => lookupJ rec "capture_source"
      | _ => none)) = [some (.str "hook_postuse")] ∧
    ¬(((logLines (applyEffects 0 ⟨[]⟩ c5run.effects) "S1").map (fun line =>
      match line with
      | .obj rec => lookupJ rec "capture_source"
      | _ => none)) = [some (.str "post")]) := by
  constructor
  · rfl
  · intro h
    rw [show ((logLines (applyEffects 0 ⟨[]⟩ c5run.effects) "S1").map
      (fun line => match line with
        | .obj rec => lookupJ rec "capture_source"
        | _ => none)) = [some (.str "hook_postuse")] from rfl] at h
    simp at h

/-- The running total the stats file holds before an update: 0 when the
file is absent, its `total_tools` value when readable, and undefined when
the update would fail. -/
def totalToolsOf (fsW : FileSys) (sid : String) : Option Int :=
  match fileData fsW telemetryDir (sid ++ "-stats.json") with
  | none => some 0
  | some (.jsonF (.obj st)) =>
      (match dictGetD st "total_tools" (.num 0) with
       | .num n => some n
       | .bool b => some (if b then 1 else 0)
       | _ => none)
  | some _ => none

theorem update_stats_increment (sid nowIso : String) (fsW : FileSys)
    (n : Int) (h : totalToolsOf fsW sid = some n) :
    ∃ v, TelemetryCollector.update_session_statistics sid nowIso fsW false
        = [.writeJson telemetryDir (sid ++ "-stats.json") v] ∧
      (match v with
       | .obj st => lookupJ st "total_tools"
       | _ => none) = some (.num (n + 1)) ∧
      (match v with
       | .obj st => lookupJ st "last_update"
       | _ => none) = some (.str nowIso) := by
  unfold totalToolsOf at h
  unfold TelemetryCollector.update_session_statistics
  rcases hf : fileData fsW telemetryDir (sid ++ "-stats.json") with _ | dat
  · rw [hf] at h
    simp only [Option.some_inj] at h
    subst h
    simp only [hf]
    refine ⟨_, rfl, ?_, ?_⟩
    · rw [show (setK (setK ([] : List (String × Json)) "total_tools"
        (.num (0 + 1))) "last_update" (.str nowIso))
        = [("total_tools", .num (0 + 1)), ("last_update", .str nowIso)]
        from rfl]
      simp [lookupJ]
    · simp [setK, lookupJ]
  · rw [hf] at h
    rcases dat with ls | v | t
    · simp at h
    · rcases v with _ | b | k | st | xs | ofs | ⟨a, b⟩
      · simp at h
      · simp at h
      · simp at h
      · simp at h
      · simp at h
      · simp only [hf]
        dsimp only at h
        rcases hg : dictGetD ofs "total_tools" (.num 0) with
          _ | b2 | k2 | st2 | xs2 | ofs2 | ⟨a2, b2⟩ <;> rw [hg] at h <;>
          simp only [Option.some_inj] at h
        · exact absurd h (by simp)
        · subst h
          simp only [hg]
          exact ⟨_, rfl, by simp [lookupJ_setK_other, lookupJ_setK_self],
            by simp [lookupJ_setK_self]⟩
        · subst h
          simp only [hg]
          exact ⟨_, rfl, by simp [lookupJ_setK_other, lookupJ_setK_self],
            by simp [lookupJ_setK_self]⟩
        · exact absurd h (by simp)
        · exact absurd h (by simp)
        · exact absurd h (by simp)
        · exact absurd h (by simp)
      · simp at h
    · simp at h


/-- C10: while a session is active, the post-capture log append and the
stats read-modify-write are independent best-effort effects: when the log
append fails, the stats file still receives the incremented `total_tools`
and a refreshed `last_update`; when the stats update fails, the log append
still happens. -/
theorem C10_append_and_stats_independent :
    ∀ (env : Env) (s t : String) (a r : List (String × Json)) (m : Json)
      (nowMs : Int) (nowIso : String) (fsW : FileSys) (n : Int),
      env.evolutionSessionId = some s → s ≠ "" →
      pyStartsWith t "mcp__indesign__" = true →
      totalToolsOf fsW s = some n →
      (∃ v, (TelemetryCollector.collector_main env
          (some (mkPostEnvelope t a r m)) nowMs nowIso fsW false true
          false).effects
        = [.mkdirE telemetryDir,
           .writeJson telemetryDir (s ++ "-stats.json") v] ∧
        (match v with
         | .obj st => lookupJ st "total_tools"
         | _ => none) = some (.num (n + 1)) ∧
        (match v with
         | .obj st => lookupJ st "last_update"
         | _ => none) = some (.str nowIso)) ∧
      (TelemetryCollector.collector_main env (some (mkPostEnvelope t a r m))
          nowMs nowIso fsW false false true).effects
        = [.mkdirE telemetryDir, .appendLog telemetryDir (s ++ ".jsonl")
           (recOf env nowMs (.post t a r m))] := by
  intro env s t a r m nowMs nowIso fsW n he hs ht htot
  constructor
  · have hred : (TelemetryCollector.collector_main env
        (some (mkPostEnvelope t a r m)) nowMs nowIso fsW false true
        false).effects
        = [Effect.mkdirE telemetryDir] ++
          TelemetryCollector.update_session_statistics s nowIso fsW false := by
      rw [collector_active_effects env s t a r m nowMs nowIso fsW he hs ht
        true false]
      rfl
    obtain ⟨v, hv, hv1, hv2⟩ := update_stats_increment s nowIso fsW n htot
    refine ⟨v, ?_, hv1, hv2⟩
    rw [hred, hv]
    rfl
  · rw [collector_active_effects env s t a r m nowMs nowIso fsW he hs ht
      false true]
    rfl

/-- Witness for C10 on a concrete session and empty filesystem. -/
theorem C10_append_and_stats_independent_witness :
    (∃ v, (TelemetryCollector.collector_main
        { evolutionSessionId := some "S1" }
        (some (mkPostEnvelope "mcp__indesign__add_text" [] [] (.num 1)))
        0 "I" ⟨[]⟩ false true false).effects
      = [.mkdirE telemetryDir,
         .writeJson telemetryDir ("S1" ++ "-stats.json") v] ∧
      (match v with
       | .obj st => lookupJ st "total_tools"
       | _ => none) = some (.num (0 + 1)) ∧
      (match v with
       | .obj st => lookupJ st "last_update"
       | _ => none) = some (.str "I")) ∧
    (TelemetryCollector.collector_main { evolutionSessionId := some "S1" }
        (some (mkPostEnvelope "mcp__indesign__add_text" [] [] (.num 1)))
        0 "I" ⟨[]⟩ false false true).effects
      = [.mkdirE telemetryDir, .appendLog telemetryDir ("S1" ++ ".jsonl")
         (recOf { evolutionSessionId := some "S1" } 0
           (.post "mcp__indesign__add_text" [] [] (.num 1)))] :=
  C10_append_and_stats_independent { evolutionSessionId := some "S1" } "S1"
    "mcp__indesign__add_text" [] [] (.num 1) 0 "I" ⟨[]⟩ 0 rfl (by decide)
    (by decide) rfl

/-- C4: for every prompt string, `classify(prompt)` returns true iff the
number of distinct phrases from the fixed vocabulary occurring
case-insensitively in the prompt is at least 3 (the vocabulary has no
duplicate phrases, so the source's count is a count of distinct phrases);
a prompt containing "recreate this", "InDesign" and "reference image"
classifies true, and a prompt containing only "recreate this" classifies
false. -/
theorem C4_classify_iff_three_distinct_matches :
    TaskInterceptor.evolution_keywords.Nodup ∧
    (∀ p : String,
      TaskInterceptor.is_evolution_prompt p = true ↔
        3 ≤ TaskInterceptor.evolution_keywords.countP
              (fun k => pyIn k (toLowerStr p))) ∧
    TaskInterceptor.is_evolution_prompt
      "Recreate this InDesign page from the reference image" = true ∧
    TaskInterceptor.is_evolution_prompt "recreate this" = false := by
  refine ⟨by decide, ?_, by decide, by decide⟩
  intro p
  show decide (3 ≤ (TaskInterceptor.evolution_keywords.map
    (fun k => if pyIn k (toLowerStr p) then (1 : Nat) else 0)).sum) = true ↔ _
  rw [sum_map_ite_eq_countP]
  exact decide_eq_true_iff

/-- C8: `extractReference` uses the ordered label patterns
"reference image:" then "reference:" (case-insensitively, first pattern that
matches anywhere wins), returns the trailing text up to end of line trimmed
of surrounding whitespace, and returns absent when no label occurs; in
particular `extractReference("Reference: cover.png\nOther text")` is
`"cover.png"`. -/
theorem C8_extract_reference_labels :
    TaskInterceptor.extract_reference_info "Reference: cover.png\nOther text"
      = some "cover.png" ∧
    (∀ p : String,
      pyIn "reference image:" (toLowerStr p) = false →
      pyIn "reference:" (toLowerStr p) = false →
      TaskInterceptor.extract_reference_info p = none) ∧
    TaskInterceptor.extract_reference_info "reference: a\nreference image: b"
      = some "b" ∧
    TaskInterceptor.extract_reference_info "reference:  my file.png   \nnext"
      = some "my file.png" := by
  refine ⟨by decide, ?_, by decide, by decide⟩
  intro p h1 h2
  unfold TaskInterceptor.extract_reference_info
  rw [reSearch_none_of_no_occurrence _ _ h1, reSearch_none_of_no_occurrence _ _ h2]

/-- Witness for C8 at a prompt with no reference label. -/
theorem C8_extract_reference_labels_witness :
    TaskInterceptor.extract_reference_info "create a page layout" = none :=
  C8_extract_reference_labels.2.1 "create a page layout" (by decide) (by decide)

theorem interceptor_body_out (env : Env) (input : Json) (nowSec : Int)
    (randHex nowIso : String) (mwf : Bool) :
    (TaskInterceptor.interceptor_body env input nowSec randHex nowIso
      mwf).out = some input ∨
    (TaskInterceptor.interceptor_body env input nowSec randHex nowIso
      mwf).out = none := by
  unfold TaskInterceptor.interceptor_body
  rcases h1 : asObj input with u1 | fields
  · simp [h1]
  rcases h2 : asObj (dictGetD fields "tool" (Json.obj [])) with u2 | tfs
  · simp [h1, h2]
  cases h3 : TaskInterceptor.isTaskName (dictGetD tfs "name" (Json.str ""))
  · simp [h1, h2, h3]
  rcases h4 : asObj (dictGetD tfs "arguments" (Json.obj [])) with u4 | pfs
  · simp [h1, h2, h3, h4]
  rcases h5 : asStr (dictGetD pfs "prompt" (Json.str "")) with u5 | prompt
  · simp [h1, h2, h3, h4, h5]
  cases h6 : TaskInterceptor.is_evolution_prompt prompt
  · simp [h1, h2, h3, h4, h5, h6]
  cases mwf <;> simp [h1, h2, h3, h4, h5, h6]

theorem enhancer_body_out (env : Env) (input : Json) (nowMs : Int)
    (mkF apF : Bool) :
    (TelemetryEnhancer.enhancer_body env input nowMs mkF apF).out = some input ∨
    (TelemetryEnhancer.enhancer_body env input nowMs mkF apF).out = none := by
  unfold TelemetryEnhancer.enhancer_body
  rcases h1 : asObj input with u1 | fields
  · simp [h1]
  rcases h2 : asObj (dictGetD fields "tool" (Json.obj [])) with u2 | tool_fs
  · simp [h1, h2]
  rcases h3 : asStr (dictGetD tool_fs "name" (Json.str "")) with u3 | tool_name
  · simp [h1, h2, h3]
  cases h4 : pyStartsWith tool_name "mcp__indesign__"
  · simp [h1, h2, h3, h4]
  cases h5 : pyTruthy env.evolutionSessionId
  · simp [h1, h2, h3, h4, h5]
  rcases h6 : asObj (dictGetD tool_fs "arguments" (Json.obj []))
    with u6 | args_fs
  · simp [h1, h2, h3, h4, h5, h6]
  rcases h7 : write_telemetry_record
      (setK (TelemetryEnhancer.enhance_telemetry_capture env tool_fs nowMs)
        "usage_analysis" (TelemetryEnhancer.analyze_tool_usage tool_name
          args_fs)) mkF apF with u7 | effs <;>
    simp [h1, h2, h3, h4, h5, h6, h7]

theorem collector_body_out (env : Env) (input : Json) (nowMs : Int)
    (nowIso : String) (fsW : FileSys) (mkF apF stF : Bool) :
    (TelemetryCollector.collector_body env input nowMs nowIso fsW mkF apF
      stF).out = some input ∨
    (TelemetryCollector.collector_body env input nowMs nowIso fsW mkF apF
      stF).out = none := by
  unfold TelemetryCollector.collector_body
  rcases h1 : asObj input with u1 | fields
  · simp [h1]
  rcases h2 : asObj (dictGetD fields "tool" (Json.obj [])) with u2 | tool_fs
  · simp [h1, h2]
  rcases h3 : asStr (dictGetD tool_fs "name" (Json.str "")) with u3 | tool_name
  · simp [h1, h2, h3]
  cases h4 : pyStartsWith tool_name "mcp__indesign__"
  · simp [h1, h2, h3, h4]
  cases h5 : pyTruthy env.evolutionSessionId
  · simp [h1, h2, h3, h4, h5]
  rcases h6 : asObj (dictGetD fields "timing" (Json.obj []))
    with u6 | timing_fs
  · simp [h1, h2, h3, h4, h5, h6]
  rcases h7 : TelemetryCollector.complete_telemetry_record env tool_fs
      (dictGetD fields "result" (Json.obj []))
      (dictGetD timing_fs "total_ms" (Json.num 0)) nowMs
    with u7 | completed_record
  · simp [h1, h2, h3, h4, h5, h6, h7]
  rcases h8 : write_telemetry_record completed_record mkF apF with u8 | e1 <;>
    simp [h1, h2, h3, h4, h5, h6, h7, h8]

/-- C2: for every input — including unparseable standard input (`stdin =
none`) and any modelled internal I/O failure — each entry point terminates
(it is a total function) and prints exactly one JSON document: either the
parsed input re-serialized or the entry point's fixed substitute object. -/
theorem C2_always_one_valid_json_output :
    (∀ env stdin nowSec randHex nowIso mwf,
      (TaskInterceptor.interceptor_main env stdin nowSec randHex nowIso
        mwf).output = stdin.getD TaskInterceptor.interceptor_fallback ∨
      (TaskInterceptor.interceptor_main env stdin nowSec randHex nowIso
        mwf).output = TaskInterceptor.interceptor_fallback) ∧
    (∀ env stdin nowMs mkF apF,
      (TelemetryEnhancer.enhancer_main env stdin nowMs mkF apF).output
          = stdin.getD TelemetryEnhancer.enhancer_fallback ∨
      (TelemetryEnhancer.enhancer_main env stdin nowMs mkF apF).output
          = TelemetryEnhancer.enhancer_fallback) ∧
    (∀ env stdin nowMs nowIso fsW mkF apF stF,
      (TelemetryCollector.collector_main env stdin nowMs nowIso fsW mkF apF
        stF).output = stdin.getD TelemetryCollector.collector_fallback ∨
      (TelemetryCollector.collector_main env stdin nowMs nowIso fsW mkF apF
        stF).output = TelemetryCollector.collector_fallback) ∧
    (∀ env stdin now nowMs nowIso tsStr fsW f m1 m2 a r,
      (CheckpointManager.checkpoint_main env stdin now nowMs nowIso tsStr fsW
        f m1 m2 a r).output = stdin.getD (.obj []) ∨
      (CheckpointManager.checkpoint_main env stdin now nowMs nowIso tsStr fsW
        f m1 m2 a r).output = .obj []) := by
  refine ⟨?_, ?_, ?_, ?_⟩
  · intro env stdin nowSec randHex nowIso mwf
    cases stdin with
    | none => left; rfl
    | some input =>
        rcases interceptor_body_out env input nowSec randHex nowIso mwf with
          h | h
        · left
          simp [TaskInterceptor.interceptor_main, h]
        · right
          simp [TaskInterceptor.interceptor_main, h]
  · intro env stdin nowMs mkF apF
    cases stdin with
    | none => left; rfl
    | some input =>
        rcases enhancer_body_out env input nowMs mkF apF with h | h
        · left
          simp [TelemetryEnhancer.enhancer_main, h]
        · right
          simp [TelemetryEnhancer.enhancer_main, h]
  · intro env stdin nowMs nowIso fsW mkF apF stF
    cases stdin with
    | none => left; rfl
    | some input =>
        rcases collector_body_out env input nowMs nowIso fsW mkF apF stF with
          h | h
        · left
          simp [TelemetryCollector.collector_main, h]
        · right
          simp [TelemetryCollector.collector_main, h]
  · intro env stdin now nowMs nowIso tsStr fsW f m1 m2 a r
    cases hc : pyTruthy (get_session_info env).session_id &&
        pyTruthy env.evolutionSessionActive
    · left
      simp [CheckpointManager.checkpoint_main, hc]
    · rcases ha : CheckpointManager.archive_evolution_data
          ((get_session_info env).session_id.getD "") tsStr nowIso
          (applyEffects now fsW
            (CheckpointManager.finalize_telemetry_session
              ((get_session_info env).session_id.getD "") nowMs nowIso f))
          m1 m2 a with eErr | ae
      · right
        simp [CheckpointManager.checkpoint_main, hc, ha]
      · left
        simp [CheckpointManager.checkpoint_main, hc, ha]

/-- The `error_type` entry of the source's result analysis for a given tool
result dict. -/
def errorTypeOf (result : List (String × Json)) : Json :=
  match TelemetryCollector.analyze_tool_result (.str "") result with
  | .obj fs => dictGetD fs "error_type" .null
  | _ => .null

/-- The `result` entry of the completed telemetry record for a given tool
result dict. -/
def resultFieldOf (result : List (String × Json)) : Json :=
  match TelemetryCollector.complete_telemetry_record {} [] (.obj result)
      (.num 0) 0 with
  | .ok rec => dictGetD rec "result" .null
  | .error _ => .null

/-- C6: the error classifier maps the error message by case-insensitive
substring match: "permission denied" yields "permission", "Timeout after
30s" yields "timeout", a message matching none of the category substrings
yields "unknown", and when no error is present `error_type` is null/absent
and the record's `result` is "success". -/
theorem C6_error_classifier :
    errorTypeOf [("error", .str "permission denied")] = .str "permission" ∧
    errorTypeOf [("error", .str "Timeout after 30s")] = .str "timeout" ∧
    (∀ msg : String, msg ≠ "" →
      (∀ sub ∈ ["timeout", "permission", "access", "not found", "missing",
                "invalid", "parameter"], pyIn sub (toLowerStr msg) = false) →
      errorTypeOf [("error", .str msg)] = .str "unknown") ∧
    (∀ result : List (String × Json), lookupJ result "error" = none →
      errorTypeOf result = .null ∧ resultFieldOf result = .str "success") := by
  refine ⟨by rfl, by rfl, ?_, ?_⟩
  · intro msg hmsg hsubs
    have ht := hsubs "timeout" (by simp)
    have hp := hsubs "permission" (by simp)
    have ha := hsubs "access" (by simp)
    have hn := hsubs "not found" (by simp)
    have hm := hsubs "missing" (by simp)
    have hi := hsubs "invalid" (by simp)
    have hpar := hsubs "parameter" (by simp)
    unfold errorTypeOf TelemetryCollector.analyze_tool_result
    simp [dictGetD, lookupJ, pyTruthyJson, pyStr, hmsg, ht, hp, ha, hn, hm,
      hi, hpar, lookupJ_setK_self]
  · intro result hnone
    have herr : dictGetD result "error" .null = .null := by
      simp [dictGetD, hnone]
    constructor
    · unfold errorTypeOf TelemetryCollector.analyze_tool_result
      rw [herr]
      simp [dictGetD, lookupJ, pyTruthyJson]
    · unfold resultFieldOf TelemetryCollector.complete_telemetry_record
      simp only [asObj]
      rw [herr]
      simp [dictGetD, lookupJ, lookupJ_setK_other, pyTruthyJson]

/-- Witness for C6 at a concrete unrecognized message and a result with no
error. -/
theorem C6_error_classifier_witness :
    errorTypeOf [("error", .str "weird glitch")] = .str "unknown" ∧
    errorTypeOf [("ok", .bool true)] = .null ∧
    resultFieldOf [("ok", .bool true)] = .str "success" :=
  ⟨C6_error_classifier.2.2.1 "weird glitch" (by decide) (by decide),
   (C6_error_classifier.2.2.2 [("ok", .bool true)] rfl).1,
   (C6_error_classifier.2.2.2 [("ok", .bool true)] rfl).2⟩

end Hooks
